import Mathlib

/-!
# Personal notification service: rate limiter, task model, queue producer, worker

A shallow embedding of the Go sources under `internal/` and the properties
proved about them.  Go `int`/`int64` values are integers with explicit 64-bit
wrap-around where the arithmetic can leave the range; Go strings are modelled
as Unicode text.
-/

set_option autoImplicit false
set_option maxRecDepth 100000

namespace PNS

/-! ## Machine integers and durations -/

/-- Two's-complement reduction of an integer to the `int64` range. -/
def wrapInt64 (x : Int) : Int := (x + 2 ^ 63) % 2 ^ 64 - 2 ^ 63

/-- Go conversion `uint(x)` of an `int` on a 64-bit platform. -/
def toUint64 (x : Int) : Nat := (x % 2 ^ 64).toNat

/-- Go `x << s` on `int64` with an unsigned shift count: the bits shifted out
are lost, and a count of 64 or more leaves zero. -/
def shl64 (x : Int) (s : Nat) : Int :=
  if 64 ≤ s then 0 else wrapInt64 (x * 2 ^ s)

/-- Go `x * y` on `int64`. -/
def mul64 (x y : Int) : Int := wrapInt64 (x * y)

/-- The constant `time.Second`: a `time.Duration` counts nanoseconds in an `int64`. -/
def Second : Int := 1000000000

/-! ## Errors -/

deriving instance DecidableEq for Except

/-- Go `error` values as far as the sources build and inspect them. -/
inductive GoError where
  /-- A value made by `errors.New`, by `fmt.Errorf` without `%w`, or by a library. -/
  | errorsNew (msg : String)
  /-- The sentinel `asynq.SkipRetry`. -/
  | skipRetry
  /-- The value `fmt.Errorf(lead + "%w", inner)`. -/
  | wrapf (lead : String) (inner : GoError)
  deriving DecidableEq, Repr

/-- The method `Error()`. -/
def GoError.Error : GoError → String
  | .errorsNew msg => msg
  | .skipRetry => "skip retry for the task"
  | .wrapf lead inner => lead ++ inner.Error

/-- The test `errors.Is(err, asynq.SkipRetry)`, by which the queue decides that a
failed task is not to be retried. -/
def GoError.isSkipRetry : GoError → Bool
  | .errorsNew _ => false
  | .skipRetry => true
  | .wrapf _ inner => inner.isSkipRetry

/-! ## Package `notification`: data types -/

/-- The type `notification.Level`, a string. -/
abbrev Level := String

def LevelInfo : Level := "info"
def LevelWarning : Level := "warning"
def LevelError : Level := "error"
def LevelCritical : Level := "critical"

/-- The method `Level.Prefix`. -/
def Level.Prefix (l : Level) : String :=
  if l = LevelInfo then "[INFO]"
  else if l = LevelWarning then "[WARNING]"
  else if l = LevelError then "[ERROR]"
  else if l = LevelCritical then "[CRITICAL]"
  else "[UNKNOWN]"

/-- The type `notification.Channel`, a string. -/
abbrev Channel := String

def ChannelTelegram : Channel := "telegram"
def ChannelEmail : Channel := "email"

/-- Lookup `v, ok := m[k]` in a Go map with string keys, kept as a list of
entries with pairwise different keys. -/
def mapGet {β : Type} (m : List (String × β)) (k : String) : Option β :=
  match m with
  | [] => none
  | (k', v) :: rest => if k' = k then some v else mapGet rest k

/-- Assignment `m[k] = v` in a Go map: the entry of `k` is replaced, or added. -/
def mapSet {β : Type} (m : List (String × β)) (k : String) (v : β) : List (String × β) :=
  match m with
  | [] => [(k, v)]
  | (k', v') :: rest => if k' = k then (k, v) :: rest else (k', v') :: mapSet rest k v

/-- Lookup `m[k]` in a Go map with boolean values: a missing key reads as `false`. -/
def boolMapIndex (m : List (String × Bool)) (k : String) : Bool :=
  (mapGet m k).getD false

/-- The map `ValidLevels`. -/
def ValidLevels : List (Level × Bool) :=
  [(LevelInfo, true), (LevelWarning, true), (LevelError, true), (LevelCritical, true)]

/-- The map `ValidChannels`. -/
def ValidChannels : List (Channel × Bool) :=
  [(ChannelTelegram, true), (ChannelEmail, true)]

/-- A point in time as a UTC wall-clock reading.  The monotonic-clock reading
and the location of a Go `time.Time` are not modelled. -/
structure Time where
  year : Int
  month : Nat
  day : Nat
  hour : Nat
  minute : Nat
  second : Nat
  nsec : Nat
  deriving DecidableEq, Repr

/-- The struct `notification.Request`. -/
structure Request where
  Title : String
  Message : String
  Level : Level
  Channels : List Channel
  Source : String
  deriving DecidableEq, Repr

/-- The struct `notification.Notification`. -/
structure Notification where
  ID : String
  Title : String
  Message : String
  Level : Level
  Channel : Channel
  APIKey : String
  CreatedAt : Time
  Source : String
  deriving DecidableEq, Repr

/-- The struct `notification.Response`. -/
structure Response where
  Status : String
  ID : String
  deriving DecidableEq, Repr

/-- The struct `notification.ErrorResponse`. -/
structure ErrorResponse where
  Error : String
  deriving DecidableEq, Repr

/-! ## Package `notification`: the validator -/

def ErrEmptyTitle : GoError := .errorsNew "title is required"
def ErrEmptyMessage : GoError := .errorsNew "message is required"
def ErrInvalidLevel : GoError :=
  .errorsNew "invalid level: must be one of info, warning, error, critical"
def ErrEmptyChannels : GoError := .errorsNew "at least one channel is required"
def ErrInvalidChannel : GoError :=
  .errorsNew "invalid channel: must be one of telegram, email"

/-- The predicate `unicode.IsSpace`: the code points with the Unicode White_Space property. -/
def IsSpace (c : Char) : Bool :=
  let n := c.toNat
  (9 ≤ n && n ≤ 13) || n == 32 || n == 0x85 || n == 0xA0 || n == 0x1680 ||
  (0x2000 ≤ n && n ≤ 0x200A) || n == 0x2028 || n == 0x2029 || n == 0x202F ||
  n == 0x205F || n == 0x3000

/-- The function `strings.TrimSpace`: the text without its leading and trailing white space. -/
def TrimSpace (s : String) : String :=
  String.mk ((s.data.dropWhile IsSpace).reverse.dropWhile IsSpace).reverse

/-- The struct `notification.Validator`; it has no fields. -/
structure Validator where
  deriving DecidableEq, Repr

def NewValidator : Validator := {}

/-- The loop over `req.Channels` at the end of `Validate`. -/
def Validator.validateChannels : List Channel → Option GoError
  | [] => none
  | ch :: rest =>
    if !boolMapIndex ValidChannels ch then some ErrInvalidChannel
    else Validator.validateChannels rest

/-- The method `Validator.Validate`; `none` is the `nil` error. -/
def Validator.Validate (_v : Validator) (req : Request) : Option GoError :=
  if TrimSpace req.Title = "" then some ErrEmptyTitle
  else if TrimSpace req.Message = "" then some ErrEmptyMessage
  else if !boolMapIndex ValidLevels req.Level then some ErrInvalidLevel
  else if req.Channels.length = 0 then some ErrEmptyChannels
  else Validator.validateChannels req.Channels

/-! ## Package `channels`: delivery channels and their registry -/

namespace channels

/-- The interface `channels.Channel`.  What `Send` returns for a notification is
decided outside the program (the provider); `none` is the `nil` error. -/
structure Channel where
  Name : PNS.Channel
  Send : Notification → Option GoError

/-- The struct `channels.Registry`: a map from channel name to channel. -/
structure Registry where
  channels : List (PNS.Channel × Channel)

def NewRegistry : Registry := ⟨[]⟩

/-- The method `Registry.Register`. -/
def Registry.Register (r : Registry) (ch : Channel) : Registry :=
  ⟨mapSet r.channels ch.Name ch⟩

/-- The method `Registry.Get`; `none` is the pair with `ok = false`. -/
def Registry.Get (r : Registry) (name : PNS.Channel) : Option Channel :=
  mapGet r.channels name

def ErrEmailNotImplemented : GoError := .errorsNew "email channel not implemented"

/-- The struct `channels.EmailChannel`; it has no fields. -/
structure EmailChannel where
  deriving DecidableEq, Repr

def NewEmailChannel : EmailChannel := {}

def EmailChannel.Name (_e : EmailChannel) : PNS.Channel := ChannelEmail

/-- The method `EmailChannel.Send`. -/
def EmailChannel.Send (_e : EmailChannel) (_n : Notification) : Option GoError :=
  some ErrEmailNotImplemented

/-- An `EmailChannel` as a value of the interface `Channel`. -/
def EmailChannel.toChannel (e : EmailChannel) : Channel := ⟨e.Name, e.Send⟩

/-- The struct `telegramMessage`, the body of a `sendMessage` request. -/
structure telegramMessage where
  ChatID : String
  Text : String
  ParseMode : String
  deriving DecidableEq, Repr

/-- The struct `telegramResponse`, the acknowledgment of the provider.
`ErrorCode` is a Go `int`; a decoded value lies in its range. -/
structure telegramResponse where
  OK : Bool
  Description : String
  ErrorCode : Int
  deriving DecidableEq, Repr

/-- An `*http.Request` as built by `Send`. -/
structure HTTPRequest where
  Method : String
  URL : String
  Header : List (String × String)
  Body : String
  deriving DecidableEq, Repr

/-- An `*http.Response` as far as `Send` reads it: what `io.ReadAll` gives for
its body.  The status code is not read. -/
structure HTTPResponse where
  Body : Except String String
  deriving DecidableEq, Repr

/-- What lies outside the Telegram channel: `encoding/json` for the two
structs, `http.NewRequestWithContext` (given method, URL and body) and the
round trip `client.Do` to the provider. -/
structure Transport where
  Marshal : telegramMessage → Except String String
  NewRequest : String → String → String → Except String HTTPRequest
  Do : HTTPRequest → Except String HTTPResponse
  Unmarshal : String → Except String telegramResponse

/-- The struct `channels.TelegramChannel`, without its `http.Client`. -/
structure TelegramChannel where
  botToken : String
  chatID : String
  deriving DecidableEq, Repr

def NewTelegramChannel (botToken chatID : String) : TelegramChannel :=
  { botToken := botToken, chatID := chatID }

def TelegramChannel.Name (_t : TelegramChannel) : PNS.Channel := ChannelTelegram

/-- The verb `%d` of `fmt` for an integer: decimal digits after a minus sign
for a negative number. -/
def formatInt (i : Int) : String :=
  if i < 0 then "-" ++ Nat.repr i.natAbs else Nat.repr i.natAbs

/-- What one run of `TelegramChannel.Send` does: the error it returns (`none`
is `nil`), the messages it hands to `json.Marshal` and the requests it hands
to `client.Do`. -/
structure SendRun where
  err : Option GoError
  messages : List telegramMessage
  requests : List HTTPRequest
  deriving DecidableEq, Repr

/-- The method `TelegramChannel.Send`. -/
def TelegramChannel.Send (t : TelegramChannel) (tr : Transport) (n : Notification) : SendRun :=
  let text := Level.Prefix n.Level ++ " " ++ n.Title ++ "\n\n" ++ n.Message
  let msg : telegramMessage := { ChatID := t.chatID, Text := text, ParseMode := "" }
  match tr.Marshal msg with
  | .error err =>
    ⟨some (.wrapf "failed to marshal telegram message: " (.errorsNew err)), [msg], []⟩
  | .ok body =>
    let url := "https://api.telegram.org/bot" ++ t.botToken ++ "/sendMessage"
    match tr.NewRequest "POST" url body with
    | .error err => ⟨some (.wrapf "failed to create request: " (.errorsNew err)), [msg], []⟩
    | .ok req =>
      let req := { req with Header := mapSet req.Header "Content-Type" "application/json" }
      match tr.Do req with
      | .error err =>
        ⟨some (.wrapf "failed to send telegram message: " (.errorsNew err)), [msg], [req]⟩
      | .ok resp =>
        match resp.Body with
        | .error err => ⟨some (.wrapf "failed to read response: " (.errorsNew err)), [msg], [req]⟩
        | .ok respBody =>
          match tr.Unmarshal respBody with
          | .error err =>
            ⟨some (.wrapf "failed to parse telegram response: " (.errorsNew err)), [msg], [req]⟩
          | .ok telegramResp =>
            if !telegramResp.OK then
              ⟨some (.errorsNew ("telegram API error: " ++ telegramResp.Description ++
                " (code: " ++ formatInt telegramResp.ErrorCode ++ ")")), [msg], [req]⟩
            else ⟨none, [msg], [req]⟩

/-- A `TelegramChannel` as a value of the interface `Channel`. -/
def TelegramChannel.toChannel (t : TelegramChannel) (tr : Transport) : Channel :=
  ⟨t.Name, fun n => (t.Send tr n).err⟩

end channels

/-! ## Package `queue`: the task model -/

def TaskTypeSuffix : String := "notification:send"

/-- The struct `queue.QueueNames`. -/
structure QueueNames where
  Notifications : String
  TaskType : String
  deriving DecidableEq, Repr

/-- The function `NewQueueNames`. -/
def NewQueueNames (lead : String) : QueueNames :=
  ⟨lead ++ ":notifications", lead ++ ":" ++ TaskTypeSuffix⟩

/-- The struct `queue.NotificationPayload`; its JSON keys are `id`, `title`,
`message`, `level`, `channel`, `api_key`, `created_at`. -/
structure NotificationPayload where
  ID : String
  Title : String
  Message : String
  Level : Level
  Channel : Channel
  APIKey : String
  CreatedAt : Time
  deriving DecidableEq, Repr

/-- An `asynq.Task`: a type name and the payload bytes, read as text. -/
structure Task where
  typename : String
  payload : String
  deriving DecidableEq, Repr

/-- The function `asynq.NewTask`. -/
def NewTask (typename : String) (payload : String) : Task := ⟨typename, payload⟩

/-- The two entry points of `encoding/json` that the queue applies to a
`NotificationPayload`.  The library is not part of the sources, so both are
parameters of the development; an error is given by its message. -/
structure JSON where
  Marshal : NotificationPayload → Except String String
  Unmarshal : String → Except String NotificationPayload

/-- The payload `NewNotificationTask` fills in from a notification;
`Source` has no field in the payload. -/
def payloadOf (n : Notification) : NotificationPayload :=
  { ID := n.ID, Title := n.Title, Message := n.Message, Level := n.Level,
    Channel := n.Channel, APIKey := n.APIKey, CreatedAt := n.CreatedAt }

/-- The function `NewNotificationTask`. -/
def NewNotificationTask (json : JSON) (n : Notification) (taskType : String) :
    Except GoError Task :=
  let payload : NotificationPayload := payloadOf n
  match json.Marshal payload with
  | .error msg => .error (.errorsNew msg)
  | .ok data => .ok (NewTask taskType data)

/-- The function `ParseNotificationPayload`. -/
def ParseNotificationPayload (json : JSON) (task : Task) :
    Except GoError NotificationPayload :=
  match json.Unmarshal task.payload with
  | .error msg => .error (.errorsNew msg)
  | .ok payload => .ok payload

/-! ## Structured log records -/

/-- The value of one `slog` attribute. -/
inductive LogValue where
  | str (s : String)
  | int (i : Int)
  | duration (d : Int)
  | any (p : NotificationPayload)
  /-- A Go string given by its bytes, which need not be UTF-8. -/
  | bytes (b : List Nat)
  deriving DecidableEq, Repr

/-- One record handed to the `slog.Logger`. -/
structure LogRecord where
  level : String
  msg : String
  attrs : List (String × LogValue)
  deriving DecidableEq, Repr

/-! ## Package `queue`: the worker -/

/-- The `RetryDelayFunc` of the worker configuration:
`time.Duration(10<<uint(n-1)) * time.Second`.  The constant `10` takes the type
`time.Duration`, so the shift and the product are `int64` operations; the
error and the task are not used. -/
def RetryDelayFunc (n : Int) (_e : GoError) (_t : Task) : Int :=
  mul64 (shl64 10 (toUint64 (wrapInt64 (n - 1)))) Second

/-- The record logged when a task has used up its retries. -/
def deadLetterRecord (payload : NotificationPayload) (err : GoError) (retried : Int) :
    LogRecord :=
  ⟨"ERROR", "notification moved to dead letter queue",
    [("notification_id", .str payload.ID), ("channel", .str payload.Channel),
     ("error", .str err.Error), ("attempts", .int (retried + 1)),
     ("payload", .any payload)]⟩

/-- The record logged when a failed task is going to be retried. -/
def willRetryRecord (payload : NotificationPayload) (err : GoError)
    (retried maxRetry : Int) : LogRecord :=
  ⟨"WARN", "notification task failed, will retry",
    [("notification_id", .str payload.ID), ("channel", .str payload.Channel),
     ("error", .str err.Error), ("attempt", .int (retried + 1)),
     ("max_retries", .int maxRetry)]⟩

/-- The `ErrorHandler` of the worker configuration, as the list of records it
logs.  `retried` and `maxRetry` are what `asynq.GetRetryCount` and
`asynq.GetMaxRetry` read from the context; retry counters stay far from the
64-bit range, so `retried+1` is the plain sum. -/
def ErrorHandler (json : JSON) (retried maxRetry : Int) (task : Task) (err : GoError) :
    List LogRecord :=
  match json.Unmarshal task.payload with
  | .ok payload =>
    if retried ≥ maxRetry then [deadLetterRecord payload err retried]
    else [willRetryRecord payload err retried maxRetry]
  | .error _ => []

/-- The struct `queue.Worker`, without the `asynq` server, the mux and the logger. -/
structure Worker where
  registry : channels.Registry
  queueNames : QueueNames

/-- What one run of `handleNotification` does: the error it returns (`none` is
`nil`), the records it logs, and the calls of `Send` it makes. -/
structure HandlerRun where
  err : Option GoError
  logs : List LogRecord
  sends : List (Channel × Notification)

/-- The notification `handleNotification` fills in from a decoded payload. -/
def notificationOf (payload : NotificationPayload) : Notification :=
  { ID := payload.ID, Title := payload.Title, Message := payload.Message,
    Level := payload.Level, Channel := payload.Channel, APIKey := payload.APIKey,
    CreatedAt := payload.CreatedAt, Source := "" }

/-- The method `Worker.handleNotification`; `latency` is what `time.Since(start)` reads. -/
def Worker.handleNotification (w : Worker) (json : JSON) (latency : Int) (task : Task) :
    HandlerRun :=
  match ParseNotificationPayload json task with
  | .error err =>
    { err := some (.wrapf "failed to parse payload: " err),
      logs := [⟨"ERROR", "failed to parse notification payload", [("error", .str err.Error)]⟩],
      sends := [] }
  | .ok payload =>
    match w.registry.Get payload.Channel with
    | none =>
      { err := some (.errorsNew ("unknown channel: " ++ payload.Channel)),
        logs := [⟨"ERROR", "unknown channel",
          [("notification_id", .str payload.ID), ("channel", .str payload.Channel)]⟩],
        sends := [] }
    | some ch =>
      let n : Notification := notificationOf payload
      match ch.Send n with
      | some err =>
        { err := some err,
          logs := [⟨"ERROR", "notification failed",
            [("notification_id", .str n.ID), ("channel", .str n.Channel),
             ("status", .str "failed"), ("error", .str err.Error),
             ("latency", .duration latency)]⟩],
          sends := [(ch.Name, n)] }
      | none =>
        { err := none,
          logs := [⟨"INFO", "notification sent",
            [("notification_id", .str n.ID), ("channel", .str n.Channel),
             ("status", .str "sent"), ("latency", .duration latency)]⟩],
          sends := [(ch.Name, n)] }

/-! ## Package `queue`: the producer -/

/-- The struct `queue.Client`, without the `asynq` client and the logger. -/
structure Client where
  maxRetries : Int
  queueNames : QueueNames
  deriving DecidableEq, Repr

/-- One call `c.client.Enqueue(task, asynq.MaxRetry(..), asynq.Queue(..), asynq.TaskID(..))`. -/
structure EnqueueCall where
  task : Task
  maxRetry : Int
  queue : String
  taskID : String
  deriving DecidableEq, Repr

/-- The `asynq.TaskInfo` of an accepted task, as far as it is read. -/
structure TaskInfo where
  ID : String
  Queue : String
  deriving DecidableEq, Repr

/-- What lies outside the producer: the identifier `uuid.New().String()` gives
the `i`-th time it is asked, and what the durable store answers to the `i`-th
submission. -/
structure Env where
  uuid : Nat → String
  clientEnqueue : Nat → EnqueueCall → Except GoError TaskInfo

/-- The state the producer acts on: how many identifiers were drawn, every
submission made so far, the tasks the store holds, and the log. -/
structure World where
  drawn : Nat
  calls : List EnqueueCall
  store : List EnqueueCall
  logs : List LogRecord
  deriving DecidableEq, Repr

/-- The notification `Client.Enqueue` builds for one channel; `Source` is left
at its zero value. -/
def notificationFor (req : Request) (apiKey : String) (now : Time) (id : String)
    (channel : Channel) : Notification :=
  { ID := id, Title := req.Title, Message := req.Message, Level := req.Level,
    Channel := channel, APIKey := apiKey, CreatedAt := now, Source := "" }

/-- The record logged when the task of a channel cannot be built. -/
def createFailedRecord (id : String) (channel : Channel) (err : GoError) : LogRecord :=
  ⟨"ERROR", "failed to create task",
    [("notification_id", .str id), ("channel", .str channel), ("error", .str err.Error)]⟩

/-- The record logged when the store refuses a submission. -/
def enqueueFailedRecord (id : String) (channel : Channel) (err : GoError) : LogRecord :=
  ⟨"ERROR", "failed to enqueue task",
    [("notification_id", .str id), ("channel", .str channel), ("error", .str err.Error)]⟩

/-- The record logged for an accepted submission. -/
def queuedRecord (id : String) (channel : Channel) (queue : String) : LogRecord :=
  ⟨"INFO", "notification queued",
    [("notification_id", .str id), ("channel", .str channel), ("queue", .str queue)]⟩

/-- The loop of `Client.Enqueue` over the channels still to be served;
`taskIDs` holds the identifiers collected so far. -/
def Client.enqueueEach (c : Client) (json : JSON) (env : Env) (req : Request)
    (apiKey : String) (now : Time) :
    List Channel → List String → World → Except GoError (List String) × World
  | [], taskIDs, w => (.ok taskIDs, w)
  | channel :: rest, taskIDs, w =>
    let n : Notification := notificationFor req apiKey now (env.uuid w.drawn) channel
    let w := { w with drawn := w.drawn + 1 }
    match NewNotificationTask json n c.queueNames.TaskType with
    | .error err =>
      (.error (.wrapf "failed to create task: " err),
        { w with logs := w.logs ++ [createFailedRecord n.ID channel err] })
    | .ok task =>
      let call : EnqueueCall := ⟨task, c.maxRetries, c.queueNames.Notifications, n.ID⟩
      match env.clientEnqueue w.calls.length call with
      | .error err =>
        (.error (.wrapf "failed to enqueue task: " err),
          { w with calls := w.calls ++ [call],
                   logs := w.logs ++ [enqueueFailedRecord n.ID channel err] })
      | .ok info =>
        Client.enqueueEach c json env req apiKey now rest (taskIDs ++ [n.ID])
          { w with calls := w.calls ++ [call], store := w.store ++ [call],
                   logs := w.logs ++ [queuedRecord n.ID channel info.Queue] }

/-- The method `Client.Enqueue`; `now` is what `time.Now()` reads.  An error
comes with no identifiers (the `nil` slice). -/
def Client.Enqueue (c : Client) (json : JSON) (env : Env) (now : Time) (req : Request)
    (apiKey : String) (w : World) : Except GoError (List String) × World :=
  Client.enqueueEach c json env req apiKey now req.Channels [] w

/-- The submission `call` is the one `Client.Enqueue` makes for the channel
`p.1` under the identifier `p.2`: it carries the task built from the
notification of that channel and identifier, the identifier as task id, the
configured maximum-retry count and the notifications queue. -/
def Client.submits (c : Client) (json : JSON) (req : Request) (apiKey : String) (now : Time)
    (p : Channel × String) (call : EnqueueCall) : Prop :=
  NewNotificationTask json (notificationFor req apiKey now p.2 p.1) c.queueNames.TaskType =
    .ok call.task ∧
  call.taskID = p.2 ∧ call.maxRetry = c.maxRetries ∧ call.queue = c.queueNames.Notifications

instance (c : Client) (json : JSON) (req : Request) (apiKey : String) (now : Time)
    (p : Channel × String) (call : EnqueueCall) :
    Decidable (c.submits json req apiKey now p call) := by
  unfold Client.submits
  infer_instance

/-! ## Package `ratelimit` -/

/-- The number of bucket units in one token: a bucket that gains `r` tokens a
minute gains `r` units a nanosecond. -/
def tokenUnit : Int := 60 * 1000000000

/-- Modelled from the spec: the token bucket of `golang.org/x/time/rate`, which is
not part of the sources.  The bucket holds at most `burst` tokens and is
refilled continuously at `limit / 60` tokens a second; `tokens` counts units
of `1 / tokenUnit` token and `last` is the clock reading, in nanoseconds, of
the last admitted request. -/
structure TokenBucket where
  limit : Int
  burst : Int
  tokens : Int
  last : Int
  deriving DecidableEq, Repr

/-- Modelled from the spec: `rate.NewLimiter`; a new bucket is full. -/
def TokenBucket.new (limit burst : Int) : TokenBucket :=
  ⟨limit, burst, burst * tokenUnit, 0⟩

/-- Modelled from the spec: the content of the bucket at the clock reading `now`,
after the refill for the time elapsed and the cap at `burst` tokens. -/
def TokenBucket.advance (b : TokenBucket) (now : Int) : Int :=
  min (b.burst * tokenUnit) (b.tokens + max 0 (now - b.last) * b.limit)

/-- Modelled from the spec: the method `AllowN` of `rate.Limiter`: `n` tokens are
taken when the bucket holds them, and nothing changes when it does not. -/
def TokenBucket.AllowN (b : TokenBucket) (now : Int) (n : Int) : Bool × TokenBucket :=
  let tokens := b.advance now
  if n * tokenUnit ≤ tokens then
    (true, { b with tokens := tokens - n * tokenUnit, last := now })
  else (false, b)

/-- Modelled from the spec: the method `Allow` of `rate.Limiter`, which is `AllowN(now, 1)`. -/
def TokenBucket.Allow (b : TokenBucket) (now : Int) : Bool × TokenBucket :=
  b.AllowN now 1

/-- The struct `ratelimit.Limiter`, without its lock.  `rate` stands for the
`rate.Limit` of `rate / 60` tokens a second. -/
structure Limiter where
  limiters : List (String × TokenBucket)
  rate : Int
  burst : Int
  deriving DecidableEq, Repr

/-- The function `NewLimiter`. -/
def NewLimiter (requestsPerMinute : Int) : Limiter :=
  { limiters := [], rate := requestsPerMinute, burst := requestsPerMinute }

/-- The method `Limiter.key`: `fmt.Sprintf("%s:%s", apiKey, channel)`. -/
def Limiter.key (_l : Limiter) (apiKey channel : String) : String :=
  apiKey ++ ":" ++ channel

/-- The method `Limiter.getLimiter`: the bucket stored under the key, made and
stored first when there is none.  The two lookups are the one under the read
lock and the one repeated under the write lock. -/
def Limiter.getLimiter (l : Limiter) (apiKey channel : String) : TokenBucket × Limiter :=
  let key := l.key apiKey channel
  match mapGet l.limiters key with
  | some limiter => (limiter, l)
  | none =>
    match mapGet l.limiters key with
    | some limiter => (limiter, l)
    | none =>
      let limiter := TokenBucket.new l.rate l.burst
      (limiter, { l with limiters := mapSet l.limiters key limiter })

/-- The method `Limiter.Allow`; `now` is the clock reading of the call.  The
bucket is shared through the map, so its new content is stored under its key. -/
def Limiter.Allow (l : Limiter) (now : Int) (apiKey channel : String) : Bool × Limiter :=
  let (limiter, l) := l.getLimiter apiKey channel
  let (ok, limiter) := limiter.Allow now
  (ok, { l with limiters := mapSet l.limiters (l.key apiKey channel) limiter })

/-- The method `Limiter.AllowN`. -/
def Limiter.AllowN (l : Limiter) (now : Int) (apiKey channel : String) (n : Int) :
    Bool × Limiter :=
  let (limiter, l) := l.getLimiter apiKey channel
  let (ok, limiter) := limiter.AllowN now n
  (ok, { l with limiters := mapSet l.limiters (l.key apiKey channel) limiter })

/-- The answers of `count` calls of `Allow` for one caller and channel, all at
the clock reading `now`, and the limiter they leave. -/
def Limiter.allowRepeated (l : Limiter) (now : Int) (apiKey channel : String) :
    Nat → List Bool × Limiter
  | 0 => ([], l)
  | count + 1 =>
    let (ok, l) := l.Allow now apiKey channel
    let (oks, l) := Limiter.allowRepeated l now apiKey channel count
    (ok :: oks, l)

/-- The answers of one call of `Allow` for each channel of a list in order,
whatever the answers are, and the limiter they leave; the call for the first
channel is the `i`-th call and reads the clock at `clock i`. -/
def Limiter.allowEach (clock : Nat → Int) (apiKey : String) :
    List Channel → Nat → Limiter → List Bool × Limiter
  | [], _, l => ([], l)
  | ch :: rest, i, l =>
    let (ok, l) := l.Allow (clock i) apiKey ch
    let (oks, l) := Limiter.allowEach clock apiKey rest (i + 1) l
    (ok :: oks, l)

/-! ## Package `api` -/

namespace api

/-- What one run of `CheckRateLimit` does: the pair it returns, the calls of
`Allow` it makes (caller and channel), and the limiter it leaves. -/
structure RateCheck where
  allowed : Bool
  blocked : String
  calls : List (String × String)
  limiter : Limiter
  deriving DecidableEq, Repr

/-- The loop of `CheckRateLimit` over the channels still to be checked; `calls`
holds the calls of `Allow` made so far, and the next call reads the clock at
`clock calls.length`. -/
def checkEach (clock : Nat → Int) (apiKey : String) :
    List Channel → Limiter → List (String × String) → RateCheck
  | [], l, calls => ⟨true, "", calls, l⟩
  | ch :: rest, l, calls =>
    let (ok, l) := l.Allow (clock calls.length) apiKey ch
    if !ok then ⟨false, ch, calls ++ [(apiKey, ch)], l⟩
    else checkEach clock apiKey rest l (calls ++ [(apiKey, ch)])

/-- The function `CheckRateLimit`; `clock i` is the clock reading of its
`i`-th call of `Allow`. -/
def CheckRateLimit (limiter : Limiter) (clock : Nat → Int) (apiKey : String)
    (channels : List Channel) : RateCheck :=
  checkEach clock apiKey channels limiter []

/-- The bytes of the UTF-8 encoding of a character. -/
def utf8Encode (c : Char) : List Nat :=
  let n := c.toNat
  if n < 0x80 then [n]
  else if n < 0x800 then [0xC0 + n / 64, 0x80 + n % 64]
  else if n < 0x10000 then [0xE0 + n / 4096, 0x80 + n / 64 % 64, 0x80 + n % 64]
  else [0xF0 + n / 262144, 0x80 + n / 4096 % 64, 0x80 + n / 64 % 64, 0x80 + n % 64]

/-- The bytes of a Go string. -/
def bytesOf (s : String) : List Nat := s.data.flatMap utf8Encode

/-- The function `maskAPIKey`; Go measures and cuts a string by bytes. -/
def maskAPIKey (key : String) : List Nat :=
  if (bytesOf key).length ≤ 8 then bytesOf "****"
  else (bytesOf key).take 4 ++ bytesOf "****" ++
    (bytesOf key).drop ((bytesOf key).length - 4)

/-- The request given to `HandleNotify` as far as it is read: the method, the
value stored in its context under `APIKeyContextKey` (if any) and the body. -/
structure NotifyRequest where
  Method : String
  ctxAPIKey : Option String
  Body : String
  deriving DecidableEq, Repr

/-- The function `GetAPIKey`, on the value the context holds. -/
def GetAPIKey (ctx : Option String) : String :=
  match ctx with
  | some v => v
  | none => ""

/-- The value handed to `WriteJSON`. -/
inductive Payload where
  | error (e : ErrorResponse)
  | response (r : Response)
  deriving DecidableEq, Repr

/-- What `WriteJSON` writes: the status code and the value encoded as the body. -/
structure Reply where
  status : Nat
  data : Payload
  deriving DecidableEq, Repr

def WriteJSON (status : Nat) (data : Payload) : Reply := ⟨status, data⟩

def WriteError (status : Nat) (message : String) : Reply :=
  WriteJSON status (.error ⟨message⟩)

/-- The struct `api.Handler`, without the logger; the limiter it points to is
passed as state. -/
structure Handler where
  validator : Validator
  client : Client
  deriving DecidableEq, Repr

/-- What one run of `HandleNotify` does: the reply it writes, the records the
handler itself logs, the calls of `Limiter.Allow` (caller and channel) and of
`Client.Enqueue` (request and caller) it makes, and the limiter and the
producer state it leaves. -/
structure NotifyRun where
  reply : Reply
  logs : List LogRecord
  allowCalls : List (String × String)
  enqueueCalls : List (Request × String)
  limiter : Limiter
  world : World
  deriving DecidableEq, Repr

/-- The method `Handler.HandleNotify`.  `decode` is the decoding of the body
by `encoding/json`, `clock` gives the clock readings of the limiter and `now`
the one of `Client.Enqueue`. -/
def Handler.HandleNotify (h : Handler) (json : JSON) (decode : String → Except String Request)
    (env : Env) (clock : Nat → Int) (now : Time) (r : NotifyRequest) (l : Limiter)
    (w : World) : NotifyRun :=
  if r.Method ≠ "POST" then ⟨WriteError 405 "method not allowed", [], [], [], l, w⟩
  else
    let apiKey := GetAPIKey r.ctxAPIKey
    if apiKey = "" then ⟨WriteError 401 "unauthorized", [], [], [], l, w⟩
    else
      match decode r.Body with
      | .error err =>
        ⟨WriteError 400 "invalid request body",
          [⟨"WARN", "invalid request body", [("error", .str err)]⟩], [], [], l, w⟩
      | .ok req =>
        match h.validator.Validate req with
        | some err =>
          ⟨WriteError 400 err.Error,
            [⟨"WARN", "validation failed", [("error", .str err.Error)]⟩], [], [], l, w⟩
        | none =>
          let check := CheckRateLimit l clock apiKey req.Channels
          if !check.allowed then
            ⟨WriteError 429 ("rate limit exceeded for channel: " ++ check.blocked),
              [⟨"WARN", "rate limit exceeded",
                [("api_key", .bytes (maskAPIKey apiKey)),
                 ("blocked_channel", .str check.blocked)]⟩],
              check.calls, [], check.limiter, w⟩
          else
            match h.client.Enqueue json env now req apiKey w with
            | (.error err, w) =>
              ⟨WriteError 500 "failed to queue notification",
                [⟨"ERROR", "failed to enqueue notification", [("error", .str err.Error)]⟩],
                check.calls, [(req, apiKey)], check.limiter, w⟩
            | (.ok taskIDs, w) =>
              ⟨WriteJSON 202 (.response ⟨"queued", ",".intercalate taskIDs⟩), [],
                check.calls, [(req, apiKey)], check.limiter, w⟩

end api

/-! ## Package `main` -/

/-- The struct `config.Config`, as far as the registry and the worker are built from it. -/
structure Config where
  RedisKeyPrefix : String
  TelegramBotToken : String
  TelegramChatID : String
  deriving DecidableEq, Repr

namespace main

/-- The channel registry `main` sets up: a new registry with the Telegram
channel registered.  The registration of the email channel is commented out
in the source. -/
def registry (cfg : Config) (tr : channels.Transport) : channels.Registry :=
  channels.NewRegistry.Register
    ((channels.NewTelegramChannel cfg.TelegramBotToken cfg.TelegramChatID).toChannel tr)

/-- The worker `main` sets up. -/
def worker (cfg : Config) (tr : channels.Transport) : Worker :=
  ⟨registry cfg tr, NewQueueNames cfg.RedisKeyPrefix⟩

end main

/-! ## A reference instance of `JSON`

`refJSON` renders a payload the way `encoding/json` does and reads back a
fragment of JSON: one object whose keys are among the seven payload keys and
whose values are strings, with a UTC timestamp under `created_at`.  Any other
input is answered by an error.  It serves to instantiate the development at
concrete payloads. -/

namespace Ref

def dquote : Char := Char.ofNat 34
def backslash : Char := Char.ofNat 92

/-- The lower-case hexadecimal digit of a value below 16. -/
def hexChar (d : Nat) : Char := Char.ofNat (if d < 10 then 48 + d else 87 + d)

/-- The JSON rendering of one character of a string, HTML-safe as `json.Marshal` writes it. -/
def escapeChar (c : Char) : List Char :=
  if c = dquote then [backslash, dquote]
  else if c = backslash then [backslash, backslash]
  else if c = '\n' then [backslash, 'n']
  else if c = '\r' then [backslash, 'r']
  else if c = '\t' then [backslash, 't']
  else if c.toNat < 32 ∨ c = '<' ∨ c = '>' ∨ c = '&' ∨ c.toNat = 0x2028 ∨ c.toNat = 0x2029 then
    [backslash, 'u', hexChar (c.toNat / 4096 % 16), hexChar (c.toNat / 256 % 16),
      hexChar (c.toNat / 16 % 16), hexChar (c.toNat % 16)]
  else [c]

/-- A string as a JSON string literal. -/
def quote (s : List Char) : List Char :=
  dquote :: (s.flatMap escapeChar ++ [dquote])

/-- The decimal digits of `n`, zero-padded (or cut) to `width` places. -/
def digitsFixed : Nat → Nat → List Char
  | 0, _ => []
  | width + 1, n => digitsFixed width (n / 10) ++ [Char.ofNat (48 + n % 10)]

/-- A list of digits without its trailing zeros. -/
def trimZeros (ds : List Char) : List Char :=
  (ds.reverse.dropWhile (fun c => c = '0')).reverse

/-- The layout `time.RFC3339Nano` for a UTC reading. -/
def formatRFC3339 (t : Time) : List Char :=
  digitsFixed 4 t.year.toNat ++ '-' :: digitsFixed 2 t.month ++ '-' :: digitsFixed 2 t.day ++
  'T' :: digitsFixed 2 t.hour ++ ':' :: digitsFixed 2 t.minute ++ ':' :: digitsFixed 2 t.second ++
  (if t.nsec = 0 then [] else '.' :: trimZeros (digitsFixed 9 t.nsec)) ++ ['Z']

/-- One member `"key":"value"` of the rendered object. -/
def member (key : String) (value : List Char) : List Char :=
  quote key.data ++ ':' :: value

/-- The object `json.Marshal` writes for a payload, keys in the order of the struct fields. -/
def render (p : NotificationPayload) : List Char :=
  '\x7b' :: member "id" (quote p.ID.data) ++ ',' :: member "title" (quote p.Title.data) ++
  ',' :: member "message" (quote p.Message.data) ++ ',' :: member "level" (quote p.Level.data) ++
  ',' :: member "channel" (quote p.Channel.data) ++ ',' :: member "api_key" (quote p.APIKey.data) ++
  ',' :: member "created_at" (dquote :: (formatRFC3339 p.CreatedAt ++ [dquote])) ++ ['\x7d']

/-- Encoding: `Time.MarshalJSON` refuses a year outside `0..9999`, and with it
`json.Marshal` fails. -/
def Marshal (p : NotificationPayload) : Except String String :=
  if p.CreatedAt.year < 0 ∨ 10000 ≤ p.CreatedAt.year then
    .error ("json: error calling MarshalJSON for type time.Time: " ++
      "Time.MarshalJSON: year outside of range [0,9999]")
  else .ok (String.mk (render p))

def isWS (c : Char) : Bool := c = ' ' || c = '\t' || c = '\n' || c = '\r'

def skipWS (cs : List Char) : List Char := cs.dropWhile isWS

/-- The body of a string literal up to its closing quote, still escaped, and
what follows the quote. -/
def scanString : List Char → Option (List Char × List Char)
  | [] => none
  | c :: cs =>
    if c = dquote then some ([], cs)
    else if c = backslash then
      match cs with
      | [] => none
      | e :: cs' => (scanString cs').map (fun r => (c :: e :: r.1, r.2))
    else if c.toNat < 32 then none
    else (scanString cs).map (fun r => (c :: r.1, r.2))

def hexVal (c : Char) : Option Nat :=
  let n := c.toNat
  if 48 ≤ n ∧ n ≤ 57 then some (n - 48)
  else if 97 ≤ n ∧ n ≤ 102 then some (n - 87)
  else if 65 ≤ n ∧ n ≤ 70 then some (n - 55)
  else none

/-- The text of an escaped string body; `none` for an escape that is not JSON
or that names a surrogate. -/
def unquote : List Char → Option (List Char)
  | [] => some []
  | c :: cs =>
    if c = backslash then
      match cs with
      | [] => none
      | e :: rest =>
        if e = 'u' then
          match rest with
          | a :: b :: c' :: d :: rest' =>
            match hexVal a, hexVal b, hexVal c', hexVal d with
            | some x, some y, some z, some w =>
              let v := x * 4096 + y * 256 + z * 16 + w
              if 0xD800 ≤ v ∧ v ≤ 0xDFFF then none
              else (unquote rest').map (fun r => Char.ofNat v :: r)
            | _, _, _, _ => none
          | _ => none
        else if e = dquote ∨ e = backslash ∨ e = '/' then (unquote rest).map (fun r => e :: r)
        else if e = 'n' then (unquote rest).map (fun r => '\n' :: r)
        else if e = 'r' then (unquote rest).map (fun r => '\r' :: r)
        else if e = 't' then (unquote rest).map (fun r => '\t' :: r)
        else if e = 'b' then (unquote rest).map (fun r => Char.ofNat 8 :: r)
        else if e = 'f' then (unquote rest).map (fun r => Char.ofNat 12 :: r)
        else none
    else (unquote cs).map (fun r => c :: r)

def digitVal (c : Char) : Option Nat :=
  if 48 ≤ c.toNat ∧ c.toNat ≤ 57 then some (c.toNat - 48) else none

/-- The value of a run of decimal digits. -/
def number (cs : List Char) : Option Nat :=
  cs.foldlM (fun acc c => (digitVal c).map (fun d => acc * 10 + d)) 0

/-- The characters at the positions `i`, .., `j - 1`. -/
def slice (cs : List Char) (i j : Nat) : List Char := (cs.drop i).take (j - i)

/-- Reads the one character `c`. -/
def expect (c : Char) : List Char → Option (List Char)
  | [] => none
  | d :: cs => if d = c then some cs else none

def daysIn (year month : Nat) : Nat :=
  if month = 2 then
    (if year % 4 = 0 ∧ (year % 100 ≠ 0 ∨ year % 400 = 0) then 29 else 28)
  else if month = 4 ∨ month = 6 ∨ month = 9 ∨ month = 11 then 30
  else 31

/-- The nanoseconds spelled by one to nine fractional digits. -/
def fractionNanos (ds : List Char) : Option Nat :=
  if ds.length = 0 ∨ 9 < ds.length then none
  else number (ds ++ List.replicate (9 - ds.length) '0')

/-- Reads what follows the seconds: `Z`, or a fraction and `Z`. -/
def parseFraction (cs : List Char) : Option Nat :=
  match cs with
  | [] => none
  | c :: rest =>
    if c = 'Z' then (if rest = [] then some 0 else none)
    else if c = '.' then
      (if rest.getLast? = some 'Z' then fractionNanos rest.dropLast else none)
    else none

/-- Reads a timestamp `YYYY-MM-DDTHH:MM:SS[.fff]Z`. -/
def parseRFC3339 (cs : List Char) : Option Time :=
  if slice cs 4 5 = ['-'] ∧ slice cs 7 8 = ['-'] ∧ slice cs 10 11 = ['T'] ∧
      slice cs 13 14 = [':'] ∧ slice cs 16 17 = [':'] ∧ (slice cs 17 19).length = 2 then
    match number (slice cs 0 4), number (slice cs 5 7), number (slice cs 8 10),
        number (slice cs 11 13), number (slice cs 14 16), number (slice cs 17 19),
        parseFraction (cs.drop 19) with
    | some year, some month, some day, some hour, some minute, some second, some nsec =>
      if 1 ≤ month ∧ month ≤ 12 ∧ 1 ≤ day ∧ day ≤ daysIn year month ∧ hour < 24 ∧
          minute < 60 ∧ second < 60 then
        some ⟨year, month, day, hour, minute, second, nsec⟩
      else none
    | _, _, _, _, _, _, _ => none
  else none

/-- The members `"key":"value"` of an object from the first key on, up to the
closing brace, each as its two escaped string bodies. -/
def scanMembers : Nat → List Char → Option (List (List Char × List Char) × List Char)
  | 0, _ => none
  | fuel + 1, cs => do
    let cs ← expect dquote (skipWS cs)
    let (key, cs) ← scanString cs
    let cs ← expect ':' (skipWS cs)
    let cs ← expect dquote (skipWS cs)
    let (value, cs) ← scanString cs
    match skipWS cs with
    | c :: cs =>
      if c = ',' then (scanMembers fuel cs).map (fun r => ((key, value) :: r.1, r.2))
      else if c = '\x7d' then some ([(key, value)], cs)
      else none
    | [] => none

/-- The members of the one object the text consists of. -/
def scanObject (cs : List Char) : Option (List (List Char × List Char)) := do
  let cs1 ← expect '\x7b' (skipWS cs)
  match skipWS cs1 with
  | c :: cs2 =>
    if c = '\x7d' then (if skipWS cs2 = [] then some [] else none)
    else do
      let (ms, rest) ← scanMembers cs.length (c :: cs2)
      if skipWS rest = [] then some ms else none
  | [] => none

/-- The zero value of `time.Time`. -/
def zeroTime : Time := ⟨1, 1, 1, 0, 0, 0, 0⟩

/-- The zero value of the payload struct, into which `json.Unmarshal` decodes. -/
def zeroPayload : NotificationPayload := ⟨"", "", "", "", "", "", zeroTime⟩

/-- Stores one member in the field its key names. -/
def assign (p : NotificationPayload) (m : List Char × List Char) :
    Option NotificationPayload := do
  let key ← unquote m.1
  if String.mk key = "created_at" then
    (parseRFC3339 m.2).map (fun t => { p with CreatedAt := t })
  else do
    let v ← unquote m.2
    if String.mk key = "id" then some { p with ID := String.mk v }
    else if String.mk key = "title" then some { p with Title := String.mk v }
    else if String.mk key = "message" then some { p with Message := String.mk v }
    else if String.mk key = "level" then some { p with Level := String.mk v }
    else if String.mk key = "channel" then some { p with Channel := String.mk v }
    else if String.mk key = "api_key" then some { p with APIKey := String.mk v }
    else none

/-- Decoding of the fragment. -/
def Unmarshal (s : String) : Except String NotificationPayload :=
  match (scanObject s.data).bind (fun ms => ms.foldlM assign zeroPayload) with
  | some p => .ok p
  | none =>
    if skipWS s.data = [] then .error "unexpected end of JSON input"
    else .error "json: cannot unmarshal the input into a value of type queue.NotificationPayload"

/-- The timestamps the rendering can be read back from: a calendar reading with a
four-digit year. -/
def wellFormed (t : Time) : Prop :=
  0 ≤ t.year ∧ t.year < 10000 ∧ 1 ≤ t.month ∧ t.month ≤ 12 ∧ 1 ≤ t.day ∧
  t.day ≤ daysIn t.year.toNat t.month ∧ t.hour < 24 ∧ t.minute < 60 ∧ t.second < 60 ∧
  t.nsec < 1000000000

instance (t : Time) : Decidable (wellFormed t) := by
  unfold wellFormed
  infer_instance

/-- The readings a `time.Time` can show: a day of the calendar and a time of
day, whatever the year. -/
def calendar (t : Time) : Prop :=
  1 ≤ t.month ∧ t.month ≤ 12 ∧ 1 ≤ t.day ∧
  t.day ≤ daysIn t.year.toNat t.month ∧ t.hour < 24 ∧ t.minute < 60 ∧ t.second < 60 ∧
  t.nsec < 1000000000

instance (t : Time) : Decidable (calendar t) := by
  unfold calendar
  infer_instance

/-- The escaped body of a string. -/
def esc (s : String) : List Char := s.data.flatMap escapeChar

/-- The members the scanner finds in a rendered payload. -/
def members (p : NotificationPayload) : List (List Char × List Char) :=
  [(esc "id", esc p.ID), (esc "title", esc p.Title), (esc "message", esc p.Message),
   (esc "level", esc p.Level), (esc "channel", esc p.Channel), (esc "api_key", esc p.APIKey),
   (esc "created_at", formatRFC3339 p.CreatedAt)]

/-- The text after the opening brace of a rendered payload. -/
def body (p : NotificationPayload) : List Char :=
  dquote :: (esc "id" ++ dquote :: ':' :: dquote :: (esc p.ID ++ dquote :: ',' ::
  dquote :: (esc "title" ++ dquote :: ':' :: dquote :: (esc p.Title ++ dquote :: ',' ::
  dquote :: (esc "message" ++ dquote :: ':' :: dquote :: (esc p.Message ++ dquote :: ',' ::
  dquote :: (esc "level" ++ dquote :: ':' :: dquote :: (esc p.Level ++ dquote :: ',' ::
  dquote :: (esc "channel" ++ dquote :: ':' :: dquote :: (esc p.Channel ++ dquote :: ',' ::
  dquote :: (esc "api_key" ++ dquote :: ':' :: dquote :: (esc p.APIKey ++ dquote :: ',' ::
  dquote :: (esc "created_at" ++ dquote :: ':' :: dquote ::
    (formatRFC3339 p.CreatedAt ++ dquote :: '\x7d' :: []))))))))))))))

end Ref

/-- The reference instance of `JSON`. -/
def refJSON : JSON := ⟨Ref.Marshal, Ref.Unmarshal⟩

/-! ## Example values -/


def exampleWorker : Worker := ⟨channels.NewRegistry, NewQueueNames "pns"⟩

/-- A task whose payload is a line break and nothing else. -/
def brokenTask : Task := ⟨"pns:notification:send", "\n"⟩

def exampleNotification : Notification :=
  ⟨"n-1", "Disk <full>", "line 1\nline 2", "error", "telegram", "key-1",
    ⟨2024, 5, 17, 8, 30, 0, 120000000⟩, "cron"⟩

/-- The task the reference codec builds for `exampleNotification`. -/
def exampleTask : Task :=
  ⟨"pns:notification:send", String.mk (Ref.render (payloadOf exampleNotification))⟩

/-- A notification stamped with the year 10000. -/
def lateNotification : Notification :=
  ⟨"n-2", "X", "Y", "info", "telegram", "key-1", ⟨10000, 1, 1, 0, 0, 0, 0⟩, ""⟩

def exampleClient : Client := ⟨5, NewQueueNames "pns"⟩

def exampleNow : Time := ⟨2024, 5, 17, 8, 30, 0, 0⟩

def exampleRequest : Request := ⟨"X", "Y", "info", ["telegram", "email"], ""⟩

/-- An identifier source with pairwise different identifiers. -/
def exampleUUID (i : Nat) : String :=
  String.mk ("00000000-0000-4000-8000-".data ++ Ref.digitsFixed 12 i)

/-- A store that accepts every submission. -/
def acceptingEnv : Env :=
  ⟨exampleUUID, fun _ call => .ok ⟨call.taskID, call.queue⟩⟩

/-- A store that accepts the first submission and is unreachable from the second on. -/
def failingEnv : Env :=
  ⟨exampleUUID, fun i call =>
    if i = 0 then .ok ⟨call.taskID, call.queue⟩ else .error (.errorsNew "redis: connection refused")⟩

def emptyWorld : World := ⟨0, [], [], []⟩

def exampleConfig : Config := ⟨"pns", "123456:token", "-1001"⟩

/-- A provider that answers every message with `chat not found`; the bodies
exchanged are placeholders. -/
def refusingTransport : channels.Transport :=
  { Marshal := fun msg => .ok msg.Text,
    NewRequest := fun method url body => .ok ⟨method, url, [], body⟩,
    Do := fun _ => .ok ⟨.ok "refused"⟩,
    Unmarshal := fun _ => .ok ⟨false, "chat not found", 400⟩ }

/-- A provider that acknowledges every message. -/
def acceptingTransport : channels.Transport :=
  { refusingTransport with Unmarshal := fun _ => .ok ⟨true, "", 0⟩ }

/-- A request that names a channel the validator does not know. -/
def smsRequest : Request := ⟨"X", "Y", "info", ["sms"], ""⟩

/-- A request that names the email channel only. -/
def emailRequest : Request := ⟨"X", "Y", "info", ["email"], ""⟩

/-- The task the reference codec builds for the notification of `emailRequest`. -/
def emailTask : Task :=
  ⟨"pns:notification:send",
    String.mk (Ref.render (payloadOf (notificationFor emailRequest "key-1" exampleNow "n-3" "email")))⟩

def exampleHandler : api.Handler := ⟨NewValidator, exampleClient⟩

/-! # Theorems -/

/-! ## The retry delay -/

theorem wrapInt64_lt (x : Int) : wrapInt64 x < 2 ^ 63 := by
  unfold wrapInt64
  have h := Int.emod_lt_of_pos (x + 2 ^ 63) (show (0 : Int) < 2 ^ 64 by norm_num)
  omega

/-- C1 (as amended): for a retry count `n ≥ 1` the delay is exactly
`10 * 2^(n-1)` seconds if and only if `n ≤ 30`; in particular the delays for
`n = 1, .., 5` are 10 s, 20 s, 40 s, 80 s and 160 s. -/
theorem retryDelay_exact_iff (n : Int) (e : GoError) (t : Task) (h1 : 1 ≤ n) :
    (RetryDelayFunc n e t = 10 * 2 ^ (n - 1).toNat * Second ↔ n ≤ 30) ∧
    [1, 2, 3, 4, 5].map (fun k => RetryDelayFunc k e t) =
      [10 * Second, 20 * Second, 40 * Second, 80 * Second, 160 * Second] := by
  refine ⟨⟨fun h => ?_, fun h => ?_⟩, by simp only [List.map, RetryDelayFunc]; decide⟩
  · by_contra hn
    have hk : (30 : ℕ) ≤ (n - 1).toNat := by omega
    have hp : (2 : Int) ^ 30 ≤ 2 ^ (n - 1).toNat := pow_le_pow_right₀ (by norm_num) hk
    have hlt : RetryDelayFunc n e t < 2 ^ 63 := wrapInt64_lt _
    rw [h] at hlt
    simp only [Second] at hlt
    norm_num at hp hlt
    omega
  · unfold RetryDelayFunc
    interval_cases n <;> decide

/-- C1, an instance of the amended statement: the third retry waits 40 seconds. -/
theorem retryDelay_exact_iff_witness :
    (1 : Int) ≤ 3 ∧
    ((RetryDelayFunc 3 (.errorsNew "delivery failed") ⟨"pns:notification:send", ""⟩ =
        10 * 2 ^ ((3 : Int) - 1).toNat * Second ↔ (3 : Int) ≤ 30) ∧
      [1, 2, 3, 4, 5].map
          (fun k => RetryDelayFunc k (.errorsNew "delivery failed") ⟨"pns:notification:send", ""⟩) =
        [10 * Second, 20 * Second, 40 * Second, 80 * Second, 160 * Second]) :=
  ⟨by decide, retryDelay_exact_iff 3 _ _ (by decide)⟩

/-- C1 as stated fails at `n = 31`: `10 << 30` times `time.Second` exceeds the
`int64` range and wraps to a negative duration. -/
theorem retryDelay_wraps_at_31 :
    RetryDelayFunc 31 (.errorsNew "delivery failed") ⟨"pns:notification:send", ""⟩ =
      -7709325833709551616 ∧
    RetryDelayFunc 31 (.errorsNew "delivery failed") ⟨"pns:notification:send", ""⟩ ≠
      10 * 2 ^ (31 - 1) * Second := by
  decide

/-- C2: at the retry count `0`, which the queue passes after the first failed
attempt, the shift count `uint(n-1)` is `2^64 - 1` and the delay is zero; the
delays after the first five failures are 0 s, 10 s, 20 s, 40 s, 80 s. -/
theorem retryDelay_first_failure_zero (e : GoError) (t : Task) :
    RetryDelayFunc 0 e t = 0 ∧
    toUint64 (wrapInt64 (0 - 1)) = 2 ^ 64 - 1 ∧
    [0, 1, 2, 3, 4].map (fun k => RetryDelayFunc k e t) =
      [0, 10 * Second, 20 * Second, 40 * Second, 80 * Second] := by
  simp only [List.map, RetryDelayFunc]
  decide

/-! ## The validator -/

theorem boolMapIndex_ValidLevels (l : Level) :
    boolMapIndex ValidLevels l = true ↔
      l = LevelInfo ∨ l = LevelWarning ∨ l = LevelError ∨ l = LevelCritical := by
  simp only [boolMapIndex, ValidLevels, mapGet]
  by_cases h1 : LevelInfo = l
  · simp [h1]
  by_cases h2 : LevelWarning = l
  · simp [h1, h2]
  by_cases h3 : LevelError = l
  · simp [h1, h2, h3]
  by_cases h4 : LevelCritical = l
  · simp [h1, h2, h3, h4]
  simp only [h1, h2, h3, h4, if_false, Option.getD_none]
  exact ⟨by simp, fun h => by rcases h with h | h | h | h <;> simp_all⟩

theorem boolMapIndex_ValidChannels (ch : Channel) :
    boolMapIndex ValidChannels ch = true ↔ ch = ChannelTelegram ∨ ch = ChannelEmail := by
  simp only [boolMapIndex, ValidChannels, mapGet]
  by_cases h1 : ChannelTelegram = ch
  · simp [h1]
  by_cases h2 : ChannelEmail = ch
  · simp [h1, h2]
  simp only [h1, h2, if_false, Option.getD_none]
  exact ⟨by simp, fun h => by rcases h with h | h <;> simp_all⟩

theorem validateChannels_eq_none (chs : List Channel) :
    Validator.validateChannels chs = none ↔
      ∀ ch ∈ chs, ch = ChannelTelegram ∨ ch = ChannelEmail := by
  induction chs with
  | nil => simp [Validator.validateChannels]
  | cons ch rest ih =>
    simp only [Validator.validateChannels, List.mem_cons, forall_eq_or_imp]
    by_cases h : boolMapIndex ValidChannels ch = true
    · simp [h, ih, (boolMapIndex_ValidChannels ch).mp h]
    · have h' : ¬ (ch = ChannelTelegram ∨ ch = ChannelEmail) :=
        fun hc => h ((boolMapIndex_ValidChannels ch).mpr hc)
      simp [h, h']

theorem validateChannels_error (chs : List Channel) (e : GoError)
    (h : Validator.validateChannels chs = some e) : e = ErrInvalidChannel := by
  induction chs with
  | nil => simp [Validator.validateChannels] at h
  | cons ch rest ih =>
    simp only [Validator.validateChannels] at h
    split at h
    · exact (Option.some.inj h).symm
    · exact ih h

/-- The trimmed text is empty exactly when every character is white space. -/
theorem TrimSpace_eq_empty_iff (s : String) :
    TrimSpace s = "" ↔ ∀ c ∈ s.data, IsSpace c = true := by
  unfold TrimSpace
  constructor
  · intro h
    have h1 : ((s.data.dropWhile IsSpace).reverse.dropWhile IsSpace).reverse = [] := by
      have := congrArg String.data h
      simpa using this
    rw [List.reverse_eq_nil_iff, List.dropWhile_eq_nil_iff] at h1
    by_contra hne
    push_neg at hne
    obtain ⟨c, hc, hcs⟩ := hne
    have hne2 : s.data.dropWhile IsSpace ≠ [] := by
      rw [Ne, List.dropWhile_eq_nil_iff]
      push_neg
      exact ⟨c, hc, hcs⟩
    obtain ⟨d, rest, hd⟩ := List.exists_cons_of_ne_nil hne2
    have hhead : IsSpace d = false := by
      have := List.head_dropWhile_not IsSpace s.data hne2
      simpa [hd] using this
    have := h1 d (by simp [hd])
    simp [hhead] at this
  · intro h
    have h1 : s.data.dropWhile IsSpace = [] := by
      rw [List.dropWhile_eq_nil_iff]
      exact h
    simp [h1]

/-- C3: `Validate` returns no error if and only if title and message are
non-empty after trimming white space, the level is one of the four levels, the
channel list is non-empty and every channel is `telegram` or `email`; any
other request gets one of the five validation errors. -/
theorem validate_accepts_iff (v : Validator) (req : Request) :
    (v.Validate req = none ↔
      TrimSpace req.Title ≠ "" ∧ TrimSpace req.Message ≠ "" ∧
      (req.Level = LevelInfo ∨ req.Level = LevelWarning ∨ req.Level = LevelError ∨
        req.Level = LevelCritical) ∧
      req.Channels ≠ [] ∧
      ∀ ch ∈ req.Channels, ch = ChannelTelegram ∨ ch = ChannelEmail) ∧
    (∀ e, v.Validate req = some e →
      e ∈ [ErrEmptyTitle, ErrEmptyMessage, ErrInvalidLevel, ErrEmptyChannels,
        ErrInvalidChannel]) := by
  unfold Validator.Validate
  by_cases ht : TrimSpace req.Title = ""
  · simp [ht]
  by_cases hm : TrimSpace req.Message = ""
  · simp [ht, hm]
  by_cases hl : boolMapIndex ValidLevels req.Level = true
  · have hl' := (boolMapIndex_ValidLevels req.Level).mp hl
    by_cases hc : req.Channels.length = 0
    · have hc' : req.Channels = [] := List.length_eq_zero.mp hc
      simp [ht, hm, hl, hc']
    · have hc' : req.Channels ≠ [] := fun h => hc (by simp [h])
      simp only [ht, hm, hl, hc, if_false, Bool.not_true, ne_eq, not_false_eq_true, true_and,
        hl', hc', Bool.false_eq_true]
      refine ⟨validateChannels_eq_none _, fun e he => ?_⟩
      rw [validateChannels_error _ _ he]
      simp
  · have hl' : ¬ (req.Level = LevelInfo ∨ req.Level = LevelWarning ∨ req.Level = LevelError ∨
        req.Level = LevelCritical) := fun h => hl ((boolMapIndex_ValidLevels req.Level).mpr h)
    simp [ht, hm, hl, hl']

/-! ## The reference codec -/

namespace Ref


theorem hexVal_hexChar (d : Nat) (h : d < 16) : hexVal (hexChar d) = some d := by
  interval_cases d <;> decide

theorem hexChar_plain (d : Nat) (h : d < 16) :
    hexChar d ≠ dquote ∧ hexChar d ≠ backslash ∧ ¬ (hexChar d).toNat < 32 := by
  interval_cases d <;> decide

theorem scanString_dquote (rest : List Char) : scanString (dquote :: rest) = some ([], rest) := by
  rw [scanString.eq_def]
  simp

theorem scanString_plain (c : Char) (cs : List Char) (h1 : c ≠ dquote) (h2 : c ≠ backslash)
    (h3 : ¬ c.toNat < 32) :
    scanString (c :: cs) = (scanString cs).map (fun r => (c :: r.1, r.2)) := by
  rw [scanString.eq_def]
  simp [h1, h2, h3]

theorem scanString_backslash (e : Char) (cs : List Char) :
    scanString (backslash :: e :: cs) =
      (scanString cs).map (fun r => (backslash :: e :: r.1, r.2)) := by
  have h : backslash ≠ dquote := by decide
  rw [scanString.eq_def]
  simp [h]

theorem scanString_escapeChar (c : Char) (cs : List Char) :
    scanString (escapeChar c ++ cs) =
      (scanString cs).map (fun r => (escapeChar c ++ r.1, r.2)) := by
  unfold escapeChar
  split_ifs with h1 h2 h3 h4 h5 h6
  · simp [scanString_backslash]
  · simp [scanString_backslash]
  · simp [scanString_backslash]
  · simp [scanString_backslash]
  · simp [scanString_backslash]
  · have a := hexChar_plain (c.toNat / 4096 % 16) (Nat.mod_lt _ (by norm_num))
    have b := hexChar_plain (c.toNat / 256 % 16) (Nat.mod_lt _ (by norm_num))
    have d := hexChar_plain (c.toNat / 16 % 16) (Nat.mod_lt _ (by norm_num))
    have e := hexChar_plain (c.toNat % 16) (Nat.mod_lt _ (by norm_num))
    simp only [List.cons_append, List.nil_append, scanString_backslash]
    rw [scanString_plain _ _ a.1 a.2.1 a.2.2, scanString_plain _ _ b.1 b.2.1 b.2.2,
      scanString_plain _ _ d.1 d.2.1 d.2.2, scanString_plain _ _ e.1 e.2.1 e.2.2]
    cases scanString cs <;> simp
  · push_neg at h6
    simp only [List.cons_append, List.nil_append]
    rw [scanString_plain c cs h1 h2 (by omega)]

theorem scanString_escaped (s rest : List Char) :
    scanString (s.flatMap escapeChar ++ dquote :: rest) = some (s.flatMap escapeChar, rest) := by
  induction s with
  | nil => simp [scanString_dquote]
  | cons c s ih =>
    simp only [List.flatMap_cons, List.append_assoc]
    rw [scanString_escapeChar, ih]
    simp

theorem scanString_plain_run (l rest : List Char)
    (h : ∀ c ∈ l, c ≠ dquote ∧ c ≠ backslash ∧ ¬ c.toNat < 32) :
    scanString (l ++ dquote :: rest) = some (l, rest) := by
  induction l with
  | nil => simp [scanString_dquote]
  | cons c l ih =>
    have hc := h c (by simp)
    rw [List.cons_append, scanString_plain c _ hc.1 hc.2.1 hc.2.2,
      ih (fun d hd => h d (by simp [hd]))]
    simp

theorem unquote_plain (c : Char) (cs : List Char) (h : c ≠ backslash) :
    unquote (c :: cs) = (unquote cs).map (fun r => c :: r) := by
  rw [unquote.eq_def]
  simp [h]

theorem unquote_dquote (cs : List Char) :
    unquote (backslash :: dquote :: cs) = (unquote cs).map (fun r => dquote :: r) := by
  have h1 : dquote ≠ 'u' := by decide
  rw [unquote.eq_def]
  simp [h1]

theorem unquote_backslash (cs : List Char) :
    unquote (backslash :: backslash :: cs) = (unquote cs).map (fun r => backslash :: r) := by
  have h1 : backslash ≠ 'u' := by decide
  rw [unquote.eq_def]
  simp [h1]

theorem unquote_n (cs : List Char) :
    unquote (backslash :: 'n' :: cs) = (unquote cs).map (fun r => '\n' :: r) := by
  have h1 : ¬ 'n' = dquote := by decide
  have h2 : ¬ 'n' = backslash := by decide
  rw [unquote.eq_def]
  simp [h1, h2]

theorem unquote_r (cs : List Char) :
    unquote (backslash :: 'r' :: cs) = (unquote cs).map (fun r => '\r' :: r) := by
  have h1 : ¬ 'r' = dquote := by decide
  have h2 : ¬ 'r' = backslash := by decide
  rw [unquote.eq_def]
  simp [h1, h2]

theorem unquote_t (cs : List Char) :
    unquote (backslash :: 't' :: cs) = (unquote cs).map (fun r => '\t' :: r) := by
  have h1 : ¬ 't' = dquote := by decide
  have h2 : ¬ 't' = backslash := by decide
  rw [unquote.eq_def]
  simp [h1, h2]

theorem unquote_u (a b c d : Char) (x y z w : Nat) (cs : List Char)
    (ha : hexVal a = some x) (hb : hexVal b = some y) (hc : hexVal c = some z)
    (hd : hexVal d = some w)
    (hs : ¬ (0xD800 ≤ x * 4096 + y * 256 + z * 16 + w ∧ x * 4096 + y * 256 + z * 16 + w ≤ 0xDFFF)) :
    unquote (backslash :: 'u' :: a :: b :: c :: d :: cs) =
      (unquote cs).map (fun r => Char.ofNat (x * 4096 + y * 256 + z * 16 + w) :: r) := by
  rw [unquote.eq_def]
  simp [ha, hb, hc, hd, hs]

theorem unquote_escapeChar (c : Char) (cs : List Char) :
    unquote (escapeChar c ++ cs) = (unquote cs).map (fun r => c :: r) := by
  unfold escapeChar
  split_ifs with h1 h2 h3 h4 h5 h6
  · subst h1
    simp [unquote_dquote]
  · subst h2
    simp [unquote_backslash]
  · subst h3
    simp [unquote_n]
  · subst h4
    simp [unquote_r]
  · subst h5
    simp [unquote_t]
  · have hlt : c.toNat < 65536 ∧ ¬ (0xD800 ≤ c.toNat ∧ c.toNat ≤ 0xDFFF) := by
      rcases h6 with h | h | h | h | h | h
      · omega
      · subst h; decide
      · subst h; decide
      · subst h; decide
      · omega
      · omega
    have hv : c.toNat / 4096 % 16 * 4096 + c.toNat / 256 % 16 * 256 + c.toNat / 16 % 16 * 16 +
        c.toNat % 16 = c.toNat := by omega
    simp only [List.cons_append, List.nil_append]
    rw [unquote_u _ _ _ _ _ _ _ _ cs
      (hexVal_hexChar _ (Nat.mod_lt _ (by norm_num))) (hexVal_hexChar _ (Nat.mod_lt _ (by norm_num)))
      (hexVal_hexChar _ (Nat.mod_lt _ (by norm_num))) (hexVal_hexChar _ (Nat.mod_lt _ (by norm_num)))
      (by rw [hv]; exact hlt.2)]
    rw [hv, Char.ofNat_toNat]
  · simp only [List.cons_append, List.nil_append]
    exact unquote_plain c cs h2

theorem unquote_escaped (s : List Char) : unquote (s.flatMap escapeChar) = some s := by
  induction s with
  | nil => rw [List.flatMap_nil, unquote.eq_def]
  | cons c s ih =>
    rw [List.flatMap_cons, unquote_escapeChar, ih]
    rfl

theorem digitVal_digit (d : Nat) (h : d < 10) : digitVal (Char.ofNat (48 + d)) = some d := by
  interval_cases d <;> decide

theorem number_snoc (l : List Char) (c : Char) :
    number (l ++ [c]) = (number l).bind (fun v => (digitVal c).map (fun d => v * 10 + d)) := by
  simp only [number, List.foldlM_append]
  cases h : List.foldlM (fun acc c => Option.map (fun d => acc * 10 + d) (digitVal c)) 0 l with
  | none => rfl
  | some v =>
    simp only [Option.bind_eq_bind, Option.some_bind, List.foldlM, Option.bind]
    cases digitVal c <;> rfl

theorem number_digitsFixed (width : Nat) :
    ∀ n, number (digitsFixed width n) = some (n % 10 ^ width) := by
  induction width with
  | zero => intro n; simp [digitsFixed, number, Nat.mod_one]
  | succ w ih =>
    intro n
    rw [digitsFixed, number_snoc, ih, digitVal_digit _ (Nat.mod_lt _ (by norm_num))]
    simp only [Option.some_bind, Option.map_some', Option.some.injEq]
    rw [pow_succ, Nat.mul_comm (10 ^ w) 10, Nat.mod_mul]
    ring

theorem digitsFixed_length (width n : Nat) : (digitsFixed width n).length = width := by
  induction width generalizing n with
  | zero => rfl
  | succ w ih => simp [digitsFixed, ih]

theorem trimZeros_restore (ds : List Char) :
    trimZeros ds ++ List.replicate (ds.length - (trimZeros ds).length) '0' = ds := by
  unfold trimZeros
  have hsplit := List.takeWhile_append_dropWhile (fun c => decide (c = '0')) ds.reverse
  have hrep : List.takeWhile (fun c => decide (c = '0')) ds.reverse =
      List.replicate (List.takeWhile (fun c => decide (c = '0')) ds.reverse).length '0' := by
    rw [List.eq_replicate_iff]
    refine ⟨rfl, fun b hb => ?_⟩
    have := List.mem_takeWhile_imp hb
    simpa using this
  have hlen : ds.length =
      (List.takeWhile (fun c => decide (c = '0')) ds.reverse).length +
      (List.dropWhile (fun c => decide (c = '0')) ds.reverse).length := by
    have := congrArg List.length hsplit
    rw [List.length_append, List.length_reverse] at this
    omega
  have hds : ds = (List.dropWhile (fun c => decide (c = '0')) ds.reverse).reverse ++
      (List.takeWhile (fun c => decide (c = '0')) ds.reverse).reverse := by
    rw [← List.reverse_append, hsplit, List.reverse_reverse]
  rw [List.length_reverse]
  conv_rhs => rw [hds]
  rw [hrep, List.reverse_replicate]
  congr 2
  omega

theorem number_replicate_zero (k : Nat) : number (List.replicate k '0') = some 0 := by
  induction k with
  | zero => rfl
  | succ k ih =>
    rw [List.replicate_succ', number_snoc, ih]
    rfl

theorem parseFraction_format (nsec : Nat) (h : nsec < 1000000000) :
    parseFraction ((if nsec = 0 then [] else '.' :: trimZeros (digitsFixed 9 nsec)) ++ ['Z']) =
      some nsec := by
  by_cases h0 : nsec = 0
  · subst h0
    simp [parseFraction]
  · have hrest := trimZeros_restore (digitsFixed 9 nsec)
    rw [digitsFixed_length] at hrest
    have hnum := number_digitsFixed 9 nsec
    rw [Nat.mod_eq_of_lt (by norm_num; exact h)] at hnum
    have hne : (trimZeros (digitsFixed 9 nsec)).length ≠ 0 := by
      intro hz
      rw [hz, List.length_eq_zero.mp hz, List.nil_append] at hrest
      rw [← hrest, number_replicate_zero] at hnum
      exact h0 (Option.some.inj hnum).symm
    have hle : ¬ 9 < (trimZeros (digitsFixed 9 nsec)).length := by
      have := congrArg List.length hrest
      rw [List.length_append, List.length_replicate, digitsFixed_length] at this
      omega
    have hZ : ('.' : Char) ≠ 'Z' := by decide
    simp only [h0, if_false, List.cons_append, parseFraction, hZ, List.getLast?_append,
      List.getLast?_singleton, List.dropLast_concat, if_true, fractionNanos,
      hne, hle, or_self, hrest, hnum]
    simp [Option.or]

theorem formatRFC3339_parts (t : Time) :
    slice (formatRFC3339 t) 0 4 = digitsFixed 4 t.year.toNat ∧
    slice (formatRFC3339 t) 4 5 = ['-'] ∧
    slice (formatRFC3339 t) 5 7 = digitsFixed 2 t.month ∧
    slice (formatRFC3339 t) 7 8 = ['-'] ∧
    slice (formatRFC3339 t) 8 10 = digitsFixed 2 t.day ∧
    slice (formatRFC3339 t) 10 11 = ['T'] ∧
    slice (formatRFC3339 t) 11 13 = digitsFixed 2 t.hour ∧
    slice (formatRFC3339 t) 13 14 = [':'] ∧
    slice (formatRFC3339 t) 14 16 = digitsFixed 2 t.minute ∧
    slice (formatRFC3339 t) 16 17 = [':'] ∧
    slice (formatRFC3339 t) 17 19 = digitsFixed 2 t.second ∧
    (formatRFC3339 t).drop 19 =
      (if t.nsec = 0 then [] else '.' :: trimZeros (digitsFixed 9 t.nsec)) ++ ['Z'] := by
  simp [formatRFC3339, slice, digitsFixed]

theorem parseRFC3339_format (t : Time) (h : wellFormed t) :
    parseRFC3339 (formatRFC3339 t) = some t := by
  obtain ⟨hy0, hy1, hm0, hm1, hd0, hd1, hh, hmi, hs, hn⟩ := h
  obtain ⟨p0, p1, p2, p3, p4, p5, p6, p7, p8, p9, p10, p11⟩ := formatRFC3339_parts t
  have hdays : daysIn t.year.toNat t.month ≤ 31 := by
    unfold daysIn
    split_ifs <;> omega
  unfold parseRFC3339
  rw [p0, p1, p2, p3, p4, p5, p6, p7, p8, p9, p10, p11, parseFraction_format _ hn]
  simp only [number_digitsFixed, digitsFixed_length, and_self, if_true]
  have e1 : t.year.toNat % 10 ^ 4 = t.year.toNat := Nat.mod_eq_of_lt (by omega)
  have e2 : t.month % 10 ^ 2 = t.month := Nat.mod_eq_of_lt (by omega)
  have e3 : t.day % 10 ^ 2 = t.day := Nat.mod_eq_of_lt (by omega)
  have e4 : t.hour % 10 ^ 2 = t.hour := Nat.mod_eq_of_lt (by omega)
  have e5 : t.minute % 10 ^ 2 = t.minute := Nat.mod_eq_of_lt (by omega)
  have e6 : t.second % 10 ^ 2 = t.second := Nat.mod_eq_of_lt (by omega)
  rw [e1, e2, e3, e4, e5, e6]
  have hcond : 1 ≤ t.month ∧ t.month ≤ 12 ∧ 1 ≤ t.day ∧ t.day ≤ daysIn t.year.toNat t.month ∧
      t.hour < 24 ∧ t.minute < 60 ∧ t.second < 60 := ⟨hm0, hm1, hd0, hd1, hh, hmi, hs⟩
  simp only [hcond, and_self, if_true, Option.some.injEq]
  cases t
  simp only [Time.mk.injEq, and_true]
  exact Int.toNat_of_nonneg hy0

theorem skipWS_cons (c : Char) (cs : List Char) (h : isWS c = false) :
    skipWS (c :: cs) = c :: cs := by
  simp [skipWS, List.dropWhile, h]

theorem scanMembers_more (fuel : Nat) (kb vb rest : List Char)
    (hk : ∀ r, scanString (kb ++ dquote :: r) = some (kb, r))
    (hv : ∀ r, scanString (vb ++ dquote :: r) = some (vb, r)) :
    scanMembers (fuel + 1)
        (dquote :: (kb ++ dquote :: ':' :: dquote :: (vb ++ dquote :: ',' :: rest))) =
      (scanMembers fuel rest).map (fun r => ((kb, vb) :: r.1, r.2)) := by
  have w1 : isWS dquote = false := by decide
  have w2 : isWS ':' = false := by decide
  have w3 : isWS ',' = false := by decide
  rw [scanMembers]
  simp only [skipWS_cons _ _ w1, skipWS_cons _ _ w2, skipWS_cons _ _ w3, expect, if_true, hk, hv,
    Option.bind_eq_bind, Option.some_bind]

theorem scanMembers_last (fuel : Nat) (kb vb rest : List Char)
    (hk : ∀ r, scanString (kb ++ dquote :: r) = some (kb, r))
    (hv : ∀ r, scanString (vb ++ dquote :: r) = some (vb, r)) :
    scanMembers (fuel + 1)
        (dquote :: (kb ++ dquote :: ':' :: dquote :: (vb ++ dquote :: '\x7d' :: rest))) =
      some ([(kb, vb)], rest) := by
  have w1 : isWS dquote = false := by decide
  have w2 : isWS ':' = false := by decide
  have w3 : isWS '\x7d' = false := by decide
  have w4 : ('\x7d' : Char) ≠ ',' := by decide
  rw [scanMembers]
  simp only [skipWS_cons _ _ w1, skipWS_cons _ _ w2, skipWS_cons _ _ w3, expect, if_true, hk, hv,
    Option.bind_eq_bind, Option.some_bind, w4, if_false]

theorem scanString_esc (s : String) (r : List Char) :
    scanString (esc s ++ dquote :: r) = some (esc s, r) :=
  scanString_escaped s.data r

theorem digitsFixed_plain (width n : Nat) :
    ∀ c ∈ digitsFixed width n, 48 ≤ c.toNat ∧ c.toNat ≤ 57 := by
  induction width generalizing n with
  | zero => simp [digitsFixed]
  | succ w ih =>
    intro c hc
    simp only [digitsFixed, List.mem_append, List.mem_singleton] at hc
    rcases hc with hc | hc
    · exact ih _ c hc
    · subst hc
      have h : n % 10 < 10 := Nat.mod_lt _ (by norm_num)
      interval_cases (n % 10) <;> decide

theorem trimZeros_subset (ds : List Char) : ∀ c ∈ trimZeros ds, c ∈ ds := by
  intro c hc
  unfold trimZeros at hc
  rw [List.mem_reverse] at hc
  have := (List.dropWhile_sublist _).subset hc
  simpa using this

theorem formatRFC3339_plain (t : Time) :
    ∀ c ∈ formatRFC3339 t, c ≠ dquote ∧ c ≠ backslash ∧ ¬ c.toNat < 32 := by
  have key : ∀ c : Char, (48 ≤ c.toNat ∧ c.toNat ≤ 57) ∨ c = '-' ∨ c = 'T' ∨ c = ':' ∨ c = '.' ∨
      c = 'Z' → c ≠ dquote ∧ c ≠ backslash ∧ ¬ c.toNat < 32 := by
    intro c hc
    rcases hc with hc | hc | hc | hc | hc | hc
    · refine ⟨?_, ?_, by omega⟩
      · intro h; subst h; revert hc; decide
      · intro h; subst h; revert hc; decide
    all_goals subst hc; decide
  intro c hc
  apply key
  simp only [formatRFC3339, List.mem_append, List.mem_cons, List.mem_singleton] at hc
  have dg := fun w n hc => digitsFixed_plain w n c hc
  have fr : c ∈ (if t.nsec = 0 then [] else '.' :: trimZeros (digitsFixed 9 t.nsec)) →
      (48 ≤ c.toNat ∧ c.toNat ≤ 57) ∨ c = '-' ∨ c = 'T' ∨ c = ':' ∨ c = '.' ∨ c = 'Z' := by
    intro hf
    split_ifs at hf with h0
    · simp at hf
    · simp only [List.mem_cons] at hf
      rcases hf with hf | hf
      · subst hf; simp
      · exact Or.inl (dg _ _ (trimZeros_subset _ c hf))
  casesm* _ ∨ _
  all_goals first
    | exact Or.inl (dg _ _ (by assumption))
    | exact fr (by assumption)
    | (subst c; simp)
    | exact absurd (by assumption) (List.not_mem_nil c)

theorem render_eq (p : NotificationPayload) : render p = '\x7b' :: body p := by
  simp [render, body, member, quote, esc]

theorem scanMembers_body (p : NotificationPayload) (fuel : Nat) :
    scanMembers (fuel + 7) (body p) = some (members p, []) := by
  have hf : ∀ r, scanString (formatRFC3339 p.CreatedAt ++ dquote :: r) =
      some (formatRFC3339 p.CreatedAt, r) :=
    fun r => scanString_plain_run _ r (formatRFC3339_plain _)
  unfold body
  rw [scanMembers_more (fuel + 6) _ _ _ (scanString_esc _) (scanString_esc _),
    scanMembers_more (fuel + 5) _ _ _ (scanString_esc _) (scanString_esc _),
    scanMembers_more (fuel + 4) _ _ _ (scanString_esc _) (scanString_esc _),
    scanMembers_more (fuel + 3) _ _ _ (scanString_esc _) (scanString_esc _),
    scanMembers_more (fuel + 2) _ _ _ (scanString_esc _) (scanString_esc _),
    scanMembers_more (fuel + 1) _ _ _ (scanString_esc _) (scanString_esc _),
    scanMembers_last fuel _ _ _ (scanString_esc _) hf]
  rfl

theorem scanObject_render (p : NotificationPayload) :
    scanObject (render p) = some (members p) := by
  have w1 : isWS '\x7b' = false := by decide
  have w2 : isWS dquote = false := by decide
  have w3 : dquote ≠ '\x7d' := by decide
  have hlen : ∃ fuel, (render p).length = fuel + 7 := by
    refine ⟨(render p).length - 7, ?_⟩
    have : 7 ≤ (render p).length := by
      simp only [render_eq, body, List.length_cons, List.length_append]
      omega
    omega
  obtain ⟨fuel, hfuel⟩ := hlen
  unfold scanObject
  rw [hfuel]
  rw [render_eq, skipWS_cons _ _ w1]
  simp only [expect, if_true, Option.bind_eq_bind, Option.some_bind]
  have hb : body p = dquote :: (body p).tail := by simp [body]
  rw [hb, skipWS_cons _ _ w2]
  simp only [w3, if_false]
  rw [← hb, scanMembers_body]
  simp [skipWS]

theorem unquote_esc (s : String) : unquote (esc s) = some s.data := unquote_escaped s.data

theorem assign_members (p : NotificationPayload) (h : wellFormed p.CreatedAt) :
    (members p).foldlM assign zeroPayload = some p := by
  have k1 : ¬ (("id" : String) = "created_at") := by decide
  have k2 : ¬ (("title" : String) = "created_at") := by decide
  have k3 : ¬ (("message" : String) = "created_at") := by decide
  have k4 : ¬ (("level" : String) = "created_at") := by decide
  have k5 : ¬ (("channel" : String) = "created_at") := by decide
  have k6 : ¬ (("api_key" : String) = "created_at") := by decide
  have t2 : ¬ (("title" : String) = "id") := by decide
  have m2 : ¬ (("message" : String) = "id") := by decide
  have m3 : ¬ (("message" : String) = "title") := by decide
  have l2 : ¬ (("level" : String) = "id") := by decide
  have l3 : ¬ (("level" : String) = "title") := by decide
  have l4 : ¬ (("level" : String) = "message") := by decide
  have c2 : ¬ (("channel" : String) = "id") := by decide
  have c3 : ¬ (("channel" : String) = "title") := by decide
  have c4 : ¬ (("channel" : String) = "message") := by decide
  have c5 : ¬ (("channel" : String) = "level") := by decide
  have a2 : ¬ (("api_key" : String) = "id") := by decide
  have a3 : ¬ (("api_key" : String) = "title") := by decide
  have a4 : ¬ (("api_key" : String) = "message") := by decide
  have a5 : ¬ (("api_key" : String) = "level") := by decide
  have a6 : ¬ (("api_key" : String) = "channel") := by decide
  simp only [members, List.foldlM, assign, unquote_esc, parseRFC3339_format _ h,
    Option.bind_eq_bind, Option.some_bind, Option.map_some', k1, k2, k3, k4, k5, k6,
    t2, m2, m3, l2, l3, l4, c2, c3, c4, c5, a2, a3, a4, a5, a6, if_true, if_false,
    Option.pure_def]

theorem Unmarshal_render (p : NotificationPayload) (h : wellFormed p.CreatedAt) :
    Unmarshal (String.mk (render p)) = .ok p := by
  simp only [Unmarshal, scanObject_render, Option.some_bind, assign_members p h]

/-- The reference codec reads back every payload it writes. -/
theorem refJSON_roundtrip (p : NotificationPayload) (data : String)
    (h : wellFormed p.CreatedAt) (hm : refJSON.Marshal p = .ok data) :
    refJSON.Unmarshal data = .ok p := by
  have hy : ¬ (p.CreatedAt.year < 0 ∨ 10000 ≤ p.CreatedAt.year) := by
    have := h.1
    have := h.2.1
    omega
  simp only [refJSON, Marshal, hy, if_false, Except.ok.injEq] at hm
  subst hm
  exact Unmarshal_render p h

end Ref

/-- The reference codec encodes every payload whose year has four digits. -/
theorem refJSON_newTask (n : Notification) (taskType : String)
    (hy : 0 ≤ n.CreatedAt.year ∧ n.CreatedAt.year < 10000) :
    NewNotificationTask refJSON n taskType =
      .ok (NewTask taskType (String.mk (Ref.render (payloadOf n)))) := by
  have h : ¬ ((payloadOf n).CreatedAt.year < 0 ∨ 10000 ≤ (payloadOf n).CreatedAt.year) := by
    simp only [payloadOf]
    omega
  simp [NewNotificationTask, refJSON, Ref.Marshal, h]

theorem exampleUUID_fresh (i j : Nat) (hi : i < 2) (hj : j < 2)
    (h : exampleUUID (0 + i) = exampleUUID (0 + j)) : i = j := by
  interval_cases i <;> interval_cases j <;> first | rfl | (exact absurd h (by decide))

/-! ## The producer -/

/-- A run of the loop over channels whose tasks are all built and accepted:
the loop goes on with the remaining channels, one identifier drawn and one
submission made and stored for each channel served. -/
theorem enqueueEach_append (c : Client) (json : JSON) (env : Env) (req : Request)
    (apiKey : String) (now : Time) (pre rest : List Channel) :
    ∀ (taskIDs : List String) (w : World),
    (∀ id ch, ch ∈ pre → ∃ task,
      NewNotificationTask json (notificationFor req apiKey now id ch) c.queueNames.TaskType =
        .ok task) →
    (∀ i call, i < pre.length → ∃ info, env.clientEnqueue (w.calls.length + i) call = .ok info) →
    ∃ newCalls newLogs,
      Client.enqueueEach c json env req apiKey now (pre ++ rest) taskIDs w =
        Client.enqueueEach c json env req apiKey now rest
          (taskIDs ++ (List.range' w.drawn pre.length).map env.uuid)
          ⟨w.drawn + pre.length, w.calls ++ newCalls, w.store ++ newCalls, w.logs ++ newLogs⟩ ∧
      List.Forall₂ (c.submits json req apiKey now)
        (pre.zip ((List.range' w.drawn pre.length).map env.uuid)) newCalls := by
  induction pre with
  | nil =>
    intro taskIDs w _ _
    exact ⟨[], [], by simp, by simp⟩
  | cons ch pre ih =>
    intro taskIDs w hEnc hOk
    obtain ⟨task, htask⟩ := hEnc (env.uuid w.drawn) ch (by simp)
    obtain ⟨info, hinfo⟩ := hOk 0 ⟨task, c.maxRetries, c.queueNames.Notifications,
      (notificationFor req apiKey now (env.uuid w.drawn) ch).ID⟩ (by simp)
    simp only [Nat.add_zero] at hinfo
    obtain ⟨newCalls, newLogs, hrun, hall⟩ := ih (taskIDs ++ [env.uuid w.drawn])
      { w with
        drawn := w.drawn + 1
        calls := w.calls ++ [⟨task, c.maxRetries, c.queueNames.Notifications,
          (notificationFor req apiKey now (env.uuid w.drawn) ch).ID⟩]
        store := w.store ++ [⟨task, c.maxRetries, c.queueNames.Notifications,
          (notificationFor req apiKey now (env.uuid w.drawn) ch).ID⟩]
        logs := w.logs ++ [queuedRecord (env.uuid w.drawn) ch info.Queue] }
      (fun id ch' hch' => hEnc id ch' (by simp [hch']))
      (fun i call hi => by
        have := hOk (i + 1) call (by simp; omega)
        simpa [Nat.add_assoc, Nat.add_comm 1 i] using this)
    refine ⟨⟨task, c.maxRetries, c.queueNames.Notifications, env.uuid w.drawn⟩ :: newCalls,
      queuedRecord (env.uuid w.drawn) ch info.Queue :: newLogs, ?_, ?_⟩
    · simp only [List.cons_append, Client.enqueueEach, htask, hinfo]
      refine hrun.trans ?_
      simp [notificationFor, List.range'_succ, Nat.add_assoc, Nat.add_comm 1]
    · simp only [List.length_cons, List.range'_succ, List.map_cons, List.zip_cons_cons]
      exact List.Forall₂.cons ⟨htask, rfl, rfl, rfl⟩ hall

/-- C4: when the task of every requested channel is built and every store
submission succeeds, `Enqueue` returns as many task ids as there are
channels, pairwise distinct when the identifiers drawn are, and makes
exactly one submission per channel, in the order of the channels, all of
them stored; the `i`-th submission carries the task of the `i`-th channel,
the `i`-th returned id as task id, the configured maximum-retry count and
the notifications queue. -/
theorem enqueue_all_accepted (c : Client) (json : JSON) (env : Env) (now : Time)
    (req : Request) (apiKey : String) (w : World)
    (hEnc : ∀ id ch, ch ∈ req.Channels → ∃ task,
      NewNotificationTask json (notificationFor req apiKey now id ch) c.queueNames.TaskType =
        .ok task)
    (hStore : ∀ i call, i < req.Channels.length →
      ∃ info, env.clientEnqueue (w.calls.length + i) call = .ok info)
    (hFresh : ∀ i j, i < req.Channels.length → j < req.Channels.length →
      env.uuid (w.drawn + i) = env.uuid (w.drawn + j) → i = j) :
    ∃ ids newCalls,
      (c.Enqueue json env now req apiKey w).1 = .ok ids ∧
      ids.length = req.Channels.length ∧ ids.Nodup ∧
      (c.Enqueue json env now req apiKey w).2.calls = w.calls ++ newCalls ∧
      (c.Enqueue json env now req apiKey w).2.store = w.store ++ newCalls ∧
      newCalls.length = req.Channels.length ∧
      List.Forall₂ (c.submits json req apiKey now) (req.Channels.zip ids) newCalls := by
  obtain ⟨newCalls, newLogs, hrun, hall⟩ :=
    enqueueEach_append c json env req apiKey now req.Channels [] [] w hEnc hStore
  refine ⟨(List.range' w.drawn req.Channels.length).map env.uuid, newCalls, ?_, by simp, ?_, ?_,
    ?_, ?_, hall⟩
  · simp only [Client.Enqueue]
    rw [← List.append_nil req.Channels, hrun]
    simp [Client.enqueueEach]
  · refine List.Nodup.map_on ?_ (List.nodup_range' _ _)
    intro x hx y hy hxy
    simp only [List.mem_range'_1] at hx hy
    have := hFresh (x - w.drawn) (y - w.drawn) (by omega) (by omega)
      (by rw [Nat.add_sub_cancel' hx.1, Nat.add_sub_cancel' hy.1]; exact hxy)
    omega
  · simp only [Client.Enqueue]
    rw [← List.append_nil req.Channels, hrun]
    simp [Client.enqueueEach]
  · simp only [Client.Enqueue]
    rw [← List.append_nil req.Channels, hrun]
    simp [Client.enqueueEach]
  · have := hall.length_eq
    simpa using this.symm

/-- One step of the loop whose task is built and whose submission the store refuses. -/
theorem enqueueEach_refused (c : Client) (json : JSON) (env : Env) (req : Request)
    (apiKey : String) (now : Time) (ch : Channel) (rest : List Channel) (taskIDs : List String)
    (w : World) (task : Task) (err : GoError)
    (htask : NewNotificationTask json (notificationFor req apiKey now (env.uuid w.drawn) ch)
      c.queueNames.TaskType = .ok task)
    (hfail : env.clientEnqueue w.calls.length
      ⟨task, c.maxRetries, c.queueNames.Notifications, env.uuid w.drawn⟩ = .error err) :
    Client.enqueueEach c json env req apiKey now (ch :: rest) taskIDs w =
      (.error (.wrapf "failed to enqueue task: " err),
        ⟨w.drawn + 1,
          w.calls ++ [⟨task, c.maxRetries, c.queueNames.Notifications, env.uuid w.drawn⟩],
          w.store, w.logs ++ [enqueueFailedRecord (env.uuid w.drawn) ch err]⟩) := by
  have hfail' : env.clientEnqueue w.calls.length
      ⟨task, c.maxRetries, c.queueNames.Notifications,
        (notificationFor req apiKey now (env.uuid w.drawn) ch).ID⟩ = .error err := hfail
  simp only [Client.enqueueEach, htask, hfail']
  rfl

/-- C5: when the store submission for the channel after `pre` is the first to
fail, `Enqueue` returns the error (and no ids), the failed submission is the
last one made, so none is made for a later channel, and the submissions for
the channels of `pre` stay in the store. -/
theorem enqueue_first_failure (c : Client) (json : JSON) (env : Env) (now : Time)
    (req : Request) (apiKey : String) (w : World) (pre post : List Channel) (ch : Channel)
    (err : GoError)
    (hch : req.Channels = pre ++ ch :: post)
    (hEnc : ∀ id ch', ch' ∈ pre ++ [ch] → ∃ task,
      NewNotificationTask json (notificationFor req apiKey now id ch') c.queueNames.TaskType =
        .ok task)
    (hOk : ∀ i call, i < pre.length →
      ∃ info, env.clientEnqueue (w.calls.length + i) call = .ok info)
    (hFail : ∀ call, env.clientEnqueue (w.calls.length + pre.length) call = .error err) :
    ∃ newCalls failed,
      (c.Enqueue json env now req apiKey w).1 = .error (.wrapf "failed to enqueue task: " err) ∧
      (c.Enqueue json env now req apiKey w).2.calls = w.calls ++ newCalls ++ [failed] ∧
      (c.Enqueue json env now req apiKey w).2.store = w.store ++ newCalls ∧
      newCalls.length = pre.length ∧
      List.Forall₂ (c.submits json req apiKey now)
        (pre.zip ((List.range' w.drawn pre.length).map env.uuid)) newCalls ∧
      c.submits json req apiKey now (ch, env.uuid (w.drawn + pre.length)) failed := by
  obtain ⟨newCalls, newLogs, hrun, hall⟩ :=
    enqueueEach_append c json env req apiKey now pre (ch :: post) [] w
      (fun id ch' h => hEnc id ch' (by simp [h])) hOk
  obtain ⟨task, htask⟩ := hEnc (env.uuid (w.drawn + pre.length)) ch (by simp)
  have hlen : newCalls.length = pre.length := by
    have := hall.length_eq
    simpa using this.symm
  have hstep := enqueueEach_refused c json env req apiKey now ch post
    ([] ++ (List.range' w.drawn pre.length).map env.uuid)
    ⟨w.drawn + pre.length, w.calls ++ newCalls, w.store ++ newCalls, w.logs ++ newLogs⟩
    task err htask
    (by simpa [hlen] using hFail ⟨task, c.maxRetries, c.queueNames.Notifications,
      env.uuid (w.drawn + pre.length)⟩)
  refine ⟨newCalls, ⟨task, c.maxRetries, c.queueNames.Notifications,
    env.uuid (w.drawn + pre.length)⟩, ?_, ?_, ?_, hlen, hall, ⟨htask, rfl, rfl, rfl⟩⟩
  all_goals
    simp only [Client.Enqueue, hch]
    rw [hrun, hstep]

/-- C4, an instance: a request for `telegram` and `email` against a store that
accepts every submission. -/
theorem enqueue_all_accepted_witness :
    ∃ ids newCalls,
      (exampleClient.Enqueue refJSON acceptingEnv exampleNow exampleRequest "key-1"
        emptyWorld).1 = .ok ids ∧
      ids.length = exampleRequest.Channels.length ∧ ids.Nodup ∧
      (exampleClient.Enqueue refJSON acceptingEnv exampleNow exampleRequest "key-1"
        emptyWorld).2.calls = emptyWorld.calls ++ newCalls ∧
      (exampleClient.Enqueue refJSON acceptingEnv exampleNow exampleRequest "key-1"
        emptyWorld).2.store = emptyWorld.store ++ newCalls ∧
      newCalls.length = exampleRequest.Channels.length ∧
      List.Forall₂ (exampleClient.submits refJSON exampleRequest "key-1" exampleNow)
        (exampleRequest.Channels.zip ids) newCalls :=
  enqueue_all_accepted exampleClient refJSON acceptingEnv exampleNow exampleRequest "key-1"
    emptyWorld
    (fun id ch _ => ⟨_, refJSON_newTask (notificationFor exampleRequest "key-1" exampleNow id ch)
      exampleClient.queueNames.TaskType
      (show (0 : Int) ≤ exampleNow.year ∧ exampleNow.year < 10000 by decide)⟩)
    (fun _ call _ => ⟨⟨call.taskID, call.queue⟩, rfl⟩)
    exampleUUID_fresh

/-- C5, an instance: the store accepts the submission for `telegram` and
refuses the one for `email`. -/
theorem enqueue_first_failure_witness :
    ∃ newCalls failed,
      (exampleClient.Enqueue refJSON failingEnv exampleNow exampleRequest "key-1" emptyWorld).1 =
        .error (.wrapf "failed to enqueue task: " (.errorsNew "redis: connection refused")) ∧
      (exampleClient.Enqueue refJSON failingEnv exampleNow exampleRequest "key-1"
        emptyWorld).2.calls = emptyWorld.calls ++ newCalls ++ [failed] ∧
      (exampleClient.Enqueue refJSON failingEnv exampleNow exampleRequest "key-1"
        emptyWorld).2.store = emptyWorld.store ++ newCalls ∧
      newCalls.length = ["telegram"].length ∧
      List.Forall₂ (exampleClient.submits refJSON exampleRequest "key-1" exampleNow)
        (["telegram"].zip ((List.range' emptyWorld.drawn ["telegram"].length).map
          failingEnv.uuid)) newCalls ∧
      exampleClient.submits refJSON exampleRequest "key-1" exampleNow
        ("email", failingEnv.uuid (emptyWorld.drawn + ["telegram"].length)) failed :=
  enqueue_first_failure exampleClient refJSON failingEnv exampleNow exampleRequest "key-1"
    emptyWorld ["telegram"] [] "email" (.errorsNew "redis: connection refused") rfl
    (fun id ch _ => ⟨_, refJSON_newTask (notificationFor exampleRequest "key-1" exampleNow id ch)
      exampleClient.queueNames.TaskType
      (show (0 : Int) ≤ exampleNow.year ∧ exampleNow.year < 10000 by decide)⟩)
    (fun i call hi => ⟨⟨call.taskID, call.queue⟩, by
      have h0 : i = 0 := by simpa using hi
      subst h0
      rfl⟩)
    (fun _ => rfl)

/-! ## The rate limiter -/

theorem mapGet_mapSet {β : Type} (m : List (String × β)) (k k' : String) (v : β) :
    mapGet (mapSet m k v) k' = if k' = k then some v else mapGet m k' := by
  induction m with
  | nil =>
    by_cases h : k' = k
    · simp [mapSet, mapGet, h]
    · simp [mapSet, mapGet, h, Ne.symm h]
  | cons e rest ih =>
    obtain ⟨a, b⟩ := e
    by_cases ha : a = k
    · by_cases h : k' = k
      · simp [mapSet, mapGet, ha, h]
      · simp [mapSet, mapGet, ha, h, Ne.symm h]
    · by_cases h : k' = k
      · subst h
        simp [mapSet, mapGet, ha, ih]
      · by_cases hk : a = k'
        · subst hk
          simp [mapSet, mapGet, ha]
        · simp [mapSet, mapGet, ha, hk, ih, h]

theorem tokenUnit_pos : 0 < tokenUnit := by decide

/-- A call of `Allow` for a pair whose bucket holds `m + 1` tokens at the clock
reading of the call is admitted and leaves `m` tokens. -/
theorem allow_of_tokens (l : Limiter) (L now : Int) (apiKey channel : String) (m : Nat)
    (hm : (m : Int) + 1 ≤ L)
    (hb : mapGet l.limiters (l.key apiKey channel) =
      some ⟨L, L, ((m : Int) + 1) * tokenUnit, now⟩) :
    (l.Allow now apiKey channel).1 = true ∧
    mapGet (l.Allow now apiKey channel).2.limiters
        ((l.Allow now apiKey channel).2.key apiKey channel) =
      some ⟨L, L, (m : Int) * tokenUnit, now⟩ := by
  have hU := tokenUnit_pos
  have hmin : min (L * tokenUnit) (((m : Int) + 1) * tokenUnit) = ((m : Int) + 1) * tokenUnit :=
    min_eq_right (by nlinarith)
  have hle : 1 * tokenUnit ≤ ((m : Int) + 1) * tokenUnit := by nlinarith
  have hsub : ((m : Int) + 1) * tokenUnit - 1 * tokenUnit = (m : Int) * tokenUnit := by ring
  have hget : l.getLimiter apiKey channel = (⟨L, L, ((m : Int) + 1) * tokenUnit, now⟩, l) := by
    simp only [Limiter.getLimiter, hb]
  have hbucket : TokenBucket.Allow ⟨L, L, ((m : Int) + 1) * tokenUnit, now⟩ now =
      (true, ⟨L, L, (m : Int) * tokenUnit, now⟩) := by
    have hle' : tokenUnit ≤ ((m : Int) + 1) * tokenUnit := by nlinarith
    have hsub' : ((m : Int) + 1) * tokenUnit - tokenUnit = (m : Int) * tokenUnit := by ring
    simp [TokenBucket.Allow, TokenBucket.AllowN, TokenBucket.advance, hmin, hle', hsub']
  have hrun : l.Allow now apiKey channel =
      (true, { l with limiters := (mapSet l.limiters (l.key apiKey channel)
        ⟨L, L, (m : Int) * tokenUnit, now⟩) }) := by
    simp only [Limiter.Allow, hget, hbucket]
  rw [hrun]
  exact ⟨rfl, by simp [Limiter.key, mapGet_mapSet]⟩

/-- A call of `Allow` for a pair whose bucket is empty at the clock reading of
the call is rejected and leaves the bucket empty. -/
theorem reject_of_no_tokens (l : Limiter) (L now : Int) (apiKey channel : String)
    (hL : 0 ≤ L)
    (hb : mapGet l.limiters (l.key apiKey channel) = some ⟨L, L, 0, now⟩) :
    (l.Allow now apiKey channel).1 = false ∧
    mapGet (l.Allow now apiKey channel).2.limiters
        ((l.Allow now apiKey channel).2.key apiKey channel) = some ⟨L, L, 0, now⟩ := by
  have hU := tokenUnit_pos
  have hmin : min (L * tokenUnit) 0 = 0 := min_eq_right (by nlinarith)
  have hle : ¬ (tokenUnit ≤ 0) := by omega
  have hget : l.getLimiter apiKey channel = (⟨L, L, 0, now⟩, l) := by
    simp only [Limiter.getLimiter, hb]
  have hbucket : TokenBucket.Allow ⟨L, L, 0, now⟩ now = (false, ⟨L, L, 0, now⟩) := by
    simp [TokenBucket.Allow, TokenBucket.AllowN, TokenBucket.advance, hmin, hle]
  have hrun : l.Allow now apiKey channel =
      (false, { l with limiters := mapSet l.limiters (l.key apiKey channel) ⟨L, L, 0, now⟩ }) := by
    simp only [Limiter.Allow, hget, hbucket]
  rw [hrun]
  exact ⟨rfl, by simp [Limiter.key, mapGet_mapSet]⟩

/-- The first call of `Allow` for a pair without a bucket makes a full bucket
and takes one token from it. -/
theorem allow_first (l : Limiter) (now : Int) (apiKey channel : String) (m : Nat)
    (hr : l.rate = (m : Int) + 1) (hbu : l.burst = (m : Int) + 1)
    (hb : mapGet l.limiters (l.key apiKey channel) = none) :
    (l.Allow now apiKey channel).1 = true ∧
    mapGet (l.Allow now apiKey channel).2.limiters
        ((l.Allow now apiKey channel).2.key apiKey channel) =
      some ⟨(m : Int) + 1, (m : Int) + 1, (m : Int) * tokenUnit, now⟩ := by
  have hU := tokenUnit_pos
  have h0 : (0 : Int) ≤ max 0 (now - 0) := le_max_left _ _
  have hmin : min (((m : Int) + 1) * tokenUnit)
      (((m : Int) + 1) * tokenUnit + max 0 (now - 0) * ((m : Int) + 1)) =
      ((m : Int) + 1) * tokenUnit := min_eq_left (by nlinarith)
  have hle : 1 * tokenUnit ≤ ((m : Int) + 1) * tokenUnit := by nlinarith
  have hsub : ((m : Int) + 1) * tokenUnit - 1 * tokenUnit = (m : Int) * tokenUnit := by ring
  have hget : l.getLimiter apiKey channel =
      (⟨(m : Int) + 1, (m : Int) + 1, ((m : Int) + 1) * tokenUnit, 0⟩,
        { l with limiters := (mapSet l.limiters (l.key apiKey channel)
          ⟨(m : Int) + 1, (m : Int) + 1, ((m : Int) + 1) * tokenUnit, 0⟩) }) := by
    simp only [Limiter.getLimiter, hb, TokenBucket.new, hr, hbu]
  have hbucket : TokenBucket.Allow
      ⟨(m : Int) + 1, (m : Int) + 1, ((m : Int) + 1) * tokenUnit, 0⟩ now =
      (true, ⟨(m : Int) + 1, (m : Int) + 1, (m : Int) * tokenUnit, now⟩) := by
    simp only [TokenBucket.Allow, TokenBucket.AllowN, TokenBucket.advance, hmin, hle, if_true,
      hsub]
  have hrun : l.Allow now apiKey channel =
      (true, { l with limiters := (mapSet
        (mapSet l.limiters (l.key apiKey channel)
          ⟨(m : Int) + 1, (m : Int) + 1, ((m : Int) + 1) * tokenUnit, 0⟩)
        (l.key apiKey channel) ⟨(m : Int) + 1, (m : Int) + 1, (m : Int) * tokenUnit, now⟩) }) := by
    simp only [Limiter.Allow, hget, hbucket]
    rfl
  rw [hrun]
  exact ⟨rfl, by simp [Limiter.key, mapGet_mapSet]⟩

/-- With `m` tokens in the bucket and no time passing, `m` calls are admitted
and the next one is rejected. -/
theorem allowRepeated_of_tokens (L now : Int) (apiKey channel : String) :
    ∀ (m : Nat) (l : Limiter), (m : Int) ≤ L →
      mapGet l.limiters (l.key apiKey channel) = some ⟨L, L, (m : Int) * tokenUnit, now⟩ →
      (l.allowRepeated now apiKey channel (m + 1)).1 = List.replicate m true ++ [false] := by
  intro m
  induction m with
  | zero =>
    intro l hL hb
    have h := reject_of_no_tokens l L now apiKey channel (by simpa using hL) (by simpa using hb)
    simp only [Limiter.allowRepeated, List.replicate_zero, List.nil_append]
    rw [h.1]
  | succ m ih =>
    intro l hL hb
    have h := allow_of_tokens l L now apiKey channel m (by push_cast at hL; exact hL)
      (by push_cast at hb; exact hb)
    have hrec := ih (l.Allow now apiKey channel).2 (by push_cast at hL; omega) h.2
    rw [Limiter.allowRepeated]
    simp only [h.1, hrec, List.replicate_succ, List.cons_append]

/-- A pair without a bucket, in a limiter configured for `m + 1` requests a
minute, is admitted `m + 1` times in a row and rejected the next time. -/
theorem allowRepeated_of_fresh_pair (l : Limiter) (now : Int) (apiKey channel : String)
    (m : Nat) (hr : l.rate = (m : Int) + 1) (hbu : l.burst = (m : Int) + 1)
    (hb : mapGet l.limiters (l.key apiKey channel) = none) :
    (l.allowRepeated now apiKey channel (m + 1 + 1)).1 =
      List.replicate (m + 1) true ++ [false] := by
  have h := allow_first l now apiKey channel m hr hbu hb
  have hrec := allowRepeated_of_tokens ((m : Int) + 1) now apiKey channel m
    (l.Allow now apiKey channel).2 (by omega) h.2
  rw [Limiter.allowRepeated]
  simp only [h.1, hrec, List.replicate_succ, List.cons_append]

/-- C6: for a limiter built by `NewLimiter L` with `L ≥ 1` and any caller and
channel, of `L + 1` calls of `Allow` at one clock reading the first `L`
return `true` and the last returns `false`. -/
theorem allow_burst_then_reject (L : Int) (hL : 1 ≤ L) (now : Int) (apiKey channel : String) :
    ((NewLimiter L).allowRepeated now apiKey channel (L.toNat + 1)).1 =
      List.replicate L.toNat true ++ [false] := by
  obtain ⟨m, hm⟩ : ∃ m : Nat, L.toNat = m + 1 := ⟨L.toNat - 1, by omega⟩
  have hLm : L = (m : Int) + 1 := by omega
  rw [hm]
  exact allowRepeated_of_fresh_pair (NewLimiter L) now apiKey channel m
    (by simp [NewLimiter, hLm]) (by simp [NewLimiter, hLm]) (by simp [NewLimiter, mapGet])

/-- C6, the instance of the scenario: under a limit of 60 a minute, 60 calls
in a row are admitted and the 61st is rejected. -/
theorem allow_burst_then_reject_witness :
    (1 : Int) ≤ 60 ∧
    ((NewLimiter 60).allowRepeated 0 "key-1" "telegram" 61).1 =
      List.replicate 60 true ++ [false] :=
  ⟨by decide, allow_burst_then_reject 60 (by decide) 0 "key-1" "telegram"⟩

/-- A call of `Allow` leaves the bucket of every other key, and the
configuration of the limiter, as they were. -/
theorem allow_other_key (l : Limiter) (now : Int) (apiKey channel k : String)
    (h : k ≠ l.key apiKey channel) :
    mapGet (l.Allow now apiKey channel).2.limiters k = mapGet l.limiters k ∧
    (l.Allow now apiKey channel).2.rate = l.rate ∧
    (l.Allow now apiKey channel).2.burst = l.burst := by
  have h' : k ≠ apiKey ++ ":" ++ channel := h
  unfold Limiter.Allow Limiter.getLimiter
  cases hb : mapGet l.limiters (l.key apiKey channel) with
  | none =>
    have hb' : mapGet l.limiters (apiKey ++ ":" ++ channel) = none := hb
    simp [mapGet_mapSet, Limiter.key, h', hb']
  | some b =>
    have hb' : mapGet l.limiters (apiKey ++ ":" ++ channel) = some b := hb
    simp [mapGet_mapSet, Limiter.key, h', hb']

/-- C7 as stated fails for the pairs `("a:b", "c")` and `("a", "b:c")`, given
to the limiter directly: they differ and have the same key, so they share one
bucket, and under a limit of one request a minute the first call of the
second pair is rejected because the first pair took the token. -/
theorem key_collision_shares_bucket :
    (("a:b", "c") : String × String) ≠ ("a", "b:c") ∧
    (NewLimiter 1).key "a:b" "c" = (NewLimiter 1).key "a" "b:c" ∧
    ((NewLimiter 1).Allow 0 "a:b" "c").1 = true ∧
    (((NewLimiter 1).Allow 0 "a:b" "c").2.getLimiter "a" "b:c").1 =
      (((NewLimiter 1).Allow 0 "a:b" "c").2.getLimiter "a:b" "c").1 ∧
    (((NewLimiter 1).Allow 0 "a:b" "c").2.Allow 0 "a" "b:c").1 = false := by
  decide

/-- Keys of channel names without a colon, such as `telegram` and `email`,
determine the caller and the channel. -/
theorem key_injective_of_no_colon (l l' : Limiter) (a1 c1 a2 c2 : String)
    (h1 : ':' ∉ c1.data) (h2 : ':' ∉ c2.data) (h : l.key a1 c1 = l'.key a2 c2) :
    a1 = a2 ∧ c1 = c2 := by
  have hd : a1.data ++ ':' :: c1.data = a2.data ++ ':' :: c2.data := by
    have := congrArg String.data h
    simpa [Limiter.key, String.data_append] using this
  rcases List.append_eq_append_iff.mp hd with ⟨a', ha, hc⟩ | ⟨c', ha, hc⟩
  · cases a' with
    | nil =>
      simp only [List.nil_append, List.cons.injEq, true_and] at hc
      simp only [List.append_nil] at ha
      exact ⟨String.ext ha.symm, String.ext hc⟩
    | cons x a'' =>
      simp only [List.cons_append, List.cons.injEq] at hc
      exact absurd (by rw [hc.2]; simp) h1
  · cases c' with
    | nil =>
      simp only [List.nil_append, List.cons.injEq, true_and] at hc
      simp only [List.append_nil] at ha
      exact ⟨String.ext ha, String.ext hc.symm⟩
    | cons x c'' =>
      simp only [List.cons_append, List.cons.injEq] at hc
      exact absurd (by rw [hc.2]; simp) h2

/-- Looking a pair up leaves the entry of every other key as it was. -/
theorem getLimiter_other_key (l : Limiter) (apiKey channel k : String)
    (h : k ≠ l.key apiKey channel) :
    mapGet (l.getLimiter apiKey channel).2.limiters k = mapGet l.limiters k := by
  have h' : k ≠ apiKey ++ ":" ++ channel := h
  unfold Limiter.getLimiter
  cases hb : mapGet l.limiters (l.key apiKey channel) with
  | none =>
    have hb' : mapGet l.limiters (apiKey ++ ":" ++ channel) = none := hb
    simp [mapGet_mapSet, Limiter.key, h', hb']
  | some b =>
    have hb' : mapGet l.limiters (apiKey ++ ":" ++ channel) = some b := hb
    simp [Limiter.key, hb']

/-- C7 (as amended): two pairs that differ and whose channel names hold no
colon have different keys, whatever the caller identifiers are; so looking up
or charging the bucket of one pair leaves the bucket stored for the other as
it was.  The channel names of a request that `Validate` accepts hold no
colon. -/
theorem key_distinct_of_no_colon (l : Limiter) (now : Int) (a1 c1 a2 c2 : String)
    (h1 : ':' ∉ c1.data) (h2 : ':' ∉ c2.data) (hne : (a1, c1) ≠ (a2, c2)) :
    l.key a1 c1 ≠ l.key a2 c2 ∧
    mapGet (l.getLimiter a1 c1).2.limiters (l.key a2 c2) = mapGet l.limiters (l.key a2 c2) ∧
    mapGet (l.Allow now a1 c1).2.limiters (l.key a2 c2) = mapGet l.limiters (l.key a2 c2) ∧
    (∀ (v : Validator) (req : Request), v.Validate req = none →
      ∀ c ∈ req.Channels, ':' ∉ c.data) := by
  have hk : l.key a1 c1 ≠ l.key a2 c2 := by
    intro heq
    obtain ⟨ha, hc⟩ := key_injective_of_no_colon l l a1 c1 a2 c2 h1 h2 heq
    exact hne (by rw [ha, hc])
  refine ⟨hk, getLimiter_other_key l a1 c1 _ (Ne.symm hk),
    (allow_other_key l now a1 c1 _ (Ne.symm hk)).1, fun v req hv c hc => ?_⟩
  have hchs : Validator.validateChannels req.Channels = none := by
    unfold Validator.Validate at hv
    split_ifs at hv
    exact hv
  rcases (validateChannels_eq_none req.Channels).mp hchs c hc with h | h <;> rw [h] <;> decide

/-- C7, an instance of the amended statement: two callers, one with a colon in
its identifier, on the two channels of the service. -/
theorem key_distinct_of_no_colon_witness :
    (NewLimiter 1).key "a:b" "telegram" ≠ (NewLimiter 1).key "a" "email" ∧
    mapGet ((NewLimiter 1).Allow 0 "a:b" "telegram").2.limiters
      ((NewLimiter 1).key "a" "email") = none :=
  ⟨(key_distinct_of_no_colon (NewLimiter 1) 0 "a:b" "telegram" "a" "email"
      (by decide) (by decide) (by decide)).1,
    (key_distinct_of_no_colon (NewLimiter 1) 0 "a:b" "telegram" "a" "email"
      (by decide) (by decide) (by decide)).2.2.1⟩

/-! ## The worker -/

/-- Two texts that differ within their first `k` characters stay different
however they go on. -/
theorem append_ne_of_take (k : Nat) (a b x y : String) (ha : k ≤ a.data.length)
    (hb : k ≤ b.data.length) (h : a.data.take k ≠ b.data.take k) : a ++ x ≠ b ++ y := by
  intro heq
  apply h
  have hd : a.data ++ x.data = b.data ++ y.data := by
    simpa [String.data_append] using congrArg String.data heq
  have := congrArg (List.take k) hd
  rwa [List.take_append_of_le_length ha, List.take_append_of_le_length hb] at this

/-- The text of every error of `TelegramChannel.Send` starts with one of six leads. -/
theorem send_error_lead (t : channels.TelegramChannel) (tr : channels.Transport)
    (n : Notification) (e : GoError) (h : (t.Send tr n).err = some e) :
    ∃ lead rest, e.Error = lead ++ rest ∧
      lead ∈ ["failed to marshal telegram message: ", "failed to create request: ",
        "failed to send telegram message: ", "failed to read response: ",
        "failed to parse telegram response: ", "telegram API error: "] := by
  unfold channels.TelegramChannel.Send at h
  dsimp only at h
  split at h
  · exact ⟨_, _, by rw [← Option.some.inj h]; rfl, by simp⟩
  split at h
  · exact ⟨_, _, by rw [← Option.some.inj h]; rfl, by simp⟩
  split at h
  · exact ⟨_, _, by rw [← Option.some.inj h]; rfl, by simp⟩
  split at h
  · exact ⟨_, _, by rw [← Option.some.inj h]; rfl, by simp⟩
  split at h
  · exact ⟨_, _, by rw [← Option.some.inj h]; rfl, by simp⟩
  split at h
  · rename_i resp _ _
    refine ⟨"telegram API error: ",
      resp.Description ++ (" (code: " ++ (channels.formatInt resp.ErrorCode ++ ")")), ?_,
      by simp⟩
    rw [← Option.some.inj h]
    simp only [GoError.Error, String.append_assoc]
  · exact absurd h (by simp)

/-- No error of the Telegram channel reads `failed to parse payload: ...`. -/
theorem send_error_not_parse (t : channels.TelegramChannel) (tr : channels.Transport)
    (n : Notification) (e : GoError) (msg : String) (h : (t.Send tr n).err = some e) :
    e.Error ≠ "failed to parse payload: " ++ msg := by
  obtain ⟨lead, rest, he, hl⟩ := send_error_lead t tr n e h
  rw [he]
  simp only [List.mem_cons, List.mem_singleton, List.not_mem_nil, or_false] at hl
  rcases hl with h | h | h | h | h | h <;> rw [h] <;>
    exact append_ne_of_take 17 _ _ _ _ (by decide) (by decide) (by decide)

/-- C8 (as amended): for a task whose payload fails to decode,
`handleNotification` returns, without calling `Send`, the decode error
wrapped as `failed to parse payload: ...`; that error is not marked to skip
retry.  It differs in its text from the error returned for a failed
delivery: an error of `Send` is returned unchanged, and no error of the
Telegram channel or of the email channel has the text of the wrapped decode
error. -/
theorem handleNotification_decode_failure (w : Worker) (json : JSON) (latency : Int)
    (task : Task) (msg : String) (h : json.Unmarshal task.payload = .error msg) :
    (w.handleNotification json latency task).err =
      some (.wrapf "failed to parse payload: " (.errorsNew msg)) ∧
    (w.handleNotification json latency task).sends = [] ∧
    GoError.isSkipRetry (.wrapf "failed to parse payload: " (.errorsNew msg)) = false ∧
    GoError.Error (.wrapf "failed to parse payload: " (.errorsNew msg)) =
      "failed to parse payload: " ++ msg ∧
    (∀ (task' : Task) (payload : NotificationPayload) (ch : channels.Channel) (e : GoError),
      json.Unmarshal task'.payload = .ok payload →
      w.registry.Get payload.Channel = some ch →
      ch.Send (notificationOf payload) = some e →
      (w.handleNotification json latency task').err = some e) ∧
    (∀ (t : channels.TelegramChannel) (tr : channels.Transport) (n : Notification)
      (e : GoError), (t.Send tr n).err = some e →
      e.Error ≠ GoError.Error (.wrapf "failed to parse payload: " (.errorsNew msg))) ∧
    (∀ (em : channels.EmailChannel) (n : Notification) (e : GoError), em.Send n = some e →
      e.Error ≠ GoError.Error (.wrapf "failed to parse payload: " (.errorsNew msg))) := by
  refine ⟨?_, ?_, rfl, rfl, ?_, ?_, ?_⟩
  · simp [Worker.handleNotification, ParseNotificationPayload, h]
  · simp [Worker.handleNotification, ParseNotificationPayload, h]
  · intro task' payload ch e hp hg hs
    simp [Worker.handleNotification, ParseNotificationPayload, hp, hg, hs]
  · intro t tr n e he
    exact send_error_not_parse t tr n e msg he
  · intro em n e he
    rw [← Option.some.inj he]
    exact append_ne_of_take 17 "email channel not implemented" "failed to parse payload: "
      "" msg (by decide) (by decide) (by decide)

/-- C8, an instance of the amended statement: a task whose payload holds no JSON value. -/
theorem handleNotification_decode_failure_witness :
    refJSON.Unmarshal brokenTask.payload = .error "unexpected end of JSON input" ∧
    (exampleWorker.handleNotification refJSON 0 brokenTask).err =
      some (.wrapf "failed to parse payload: " (.errorsNew "unexpected end of JSON input")) ∧
    (exampleWorker.handleNotification refJSON 0 brokenTask).sends = [] :=
  ⟨by decide,
    (handleNotification_decode_failure exampleWorker refJSON 0 brokenTask
      "unexpected end of JSON input" (by decide)).1,
    (handleNotification_decode_failure exampleWorker refJSON 0 brokenTask
      "unexpected end of JSON input" (by decide)).2.1⟩

/-- C8 as stated fails for a task with an empty payload: the error returned
is not marked to skip retry. -/
theorem undecodable_payload_not_terminal :
    (exampleWorker.handleNotification refJSON 0 ⟨"pns:notification:send", ""⟩).err =
      some (.wrapf "failed to parse payload: " (.errorsNew "unexpected end of JSON input")) ∧
    ((exampleWorker.handleNotification refJSON 0 ⟨"pns:notification:send", ""⟩).err.map
      GoError.isSkipRetry) = some false := by
  decide

/-- C9: for a failed task whose payload decodes, the `ErrorHandler` logs the
dead-letter record (id, channel, error, attempt count, payload) exactly when
`retried ≥ maxRetry` and otherwise only the will-retry warning; both carry
the attempt count `retried + 1`.  With a maximum of 5 the dead-letter record
of the failure at `retried = 5` carries the count 6, and no failure with
`retried < 5` logs a dead-letter record. -/
theorem errorHandler_dead_letter_iff (json : JSON) (retried maxRetry : Int) (task : Task)
    (err : GoError) (payload : NotificationPayload)
    (h : json.Unmarshal task.payload = .ok payload) :
    (retried ≥ maxRetry →
      ErrorHandler json retried maxRetry task err = [deadLetterRecord payload err retried]) ∧
    (retried < maxRetry →
      ErrorHandler json retried maxRetry task err =
        [willRetryRecord payload err retried maxRetry]) ∧
    ((∃ r ∈ ErrorHandler json retried maxRetry task err,
        r.msg = "notification moved to dead letter queue") ↔ retried ≥ maxRetry) ∧
    (deadLetterRecord payload err retried).attrs =
      [("notification_id", .str payload.ID), ("channel", .str payload.Channel),
       ("error", .str err.Error), ("attempts", .int (retried + 1)), ("payload", .any payload)] ∧
    mapGet (willRetryRecord payload err retried maxRetry).attrs "attempt" =
      some (.int (retried + 1)) ∧
    (maxRetry = 5 →
      (retried = 5 →
        ErrorHandler json retried maxRetry task err = [deadLetterRecord payload err 5] ∧
        mapGet (deadLetterRecord payload err 5).attrs "attempts" = some (.int 6)) ∧
      (retried < 5 → ∀ r ∈ ErrorHandler json retried maxRetry task err,
        r.msg ≠ "notification moved to dead letter queue")) := by
  have hdead : retried ≥ maxRetry →
      ErrorHandler json retried maxRetry task err = [deadLetterRecord payload err retried] := by
    intro hge
    simp [ErrorHandler, h, hge]
  have hwarn : retried < maxRetry →
      ErrorHandler json retried maxRetry task err =
        [willRetryRecord payload err retried maxRetry] := by
    intro hlt
    have : ¬ retried ≥ maxRetry := by omega
    simp [ErrorHandler, h, this]
  refine ⟨hdead, hwarn, ⟨fun hex => ?_, fun hge => ?_⟩, rfl, by simp [willRetryRecord, mapGet],
    fun h5 => ⟨fun hr => ?_, fun hr r hmem => ?_⟩⟩
  · by_contra hlt
    obtain ⟨r, hmem, hmsg⟩ := hex
    rw [hwarn (by omega)] at hmem
    simp only [List.mem_singleton] at hmem
    subst hmem
    simp [willRetryRecord] at hmsg
  · exact ⟨deadLetterRecord payload err retried, by rw [hdead hge]; simp, rfl⟩
  · subst h5 hr
    exact ⟨hdead (le_refl _), by simp [deadLetterRecord, mapGet]⟩
  · subst h5
    rw [hwarn hr] at hmem
    simp only [List.mem_singleton] at hmem
    subst hmem
    simp [willRetryRecord]

/-- C9, an instance: the sixth failure of a task under a maximum of five retries. -/
theorem errorHandler_dead_letter_iff_witness :
    refJSON.Unmarshal exampleTask.payload = .ok (payloadOf exampleNotification) ∧
    ErrorHandler refJSON 5 5 exampleTask (.errorsNew "telegram API error: chat not found (code: 400)") =
      [deadLetterRecord (payloadOf exampleNotification)
        (.errorsNew "telegram API error: chat not found (code: 400)") 5] ∧
    mapGet (deadLetterRecord (payloadOf exampleNotification)
      (.errorsNew "telegram API error: chat not found (code: 400)") 5).attrs "attempts" =
      some (.int 6) :=
  ⟨by decide,
    ((errorHandler_dead_letter_iff refJSON 5 5 exampleTask
      (.errorsNew "telegram API error: chat not found (code: 400)")
      (payloadOf exampleNotification) (by decide)).2.2.2.2.2 rfl).1 rfl⟩

/-! ## The task model -/

/-- For any JSON library that decodes what it encoded for the payload of `n`:
a task built for `n` and `t` has type `t`, and its payload decodes to the
seven fields of `n`. -/
theorem parse_new_of_roundtrip (json : JSON) (n : Notification) (t : String) (task : Task)
    (hrt : ∀ data, json.Marshal (payloadOf n) = .ok data →
      json.Unmarshal data = .ok (payloadOf n))
    (hnew : NewNotificationTask json n t = .ok task) :
    task.typename = t ∧
    json.Marshal ⟨n.ID, n.Title, n.Message, n.Level, n.Channel, n.APIKey, n.CreatedAt⟩ =
      .ok task.payload ∧
    ∃ p, ParseNotificationPayload json task = .ok p ∧
      p.ID = n.ID ∧ p.Title = n.Title ∧ p.Message = n.Message ∧ p.Level = n.Level ∧
      p.Channel = n.Channel ∧ p.APIKey = n.APIKey ∧ p.CreatedAt = n.CreatedAt := by
  unfold NewNotificationTask at hnew
  cases hm : json.Marshal (payloadOf n) with
  | error msg => simp [hm] at hnew
  | ok data =>
    simp only [hm, Except.ok.injEq] at hnew
    subst hnew
    refine ⟨rfl, hm, payloadOf n, ?_, rfl, rfl, rfl, rfl, rfl, rfl, rfl⟩
    simp [ParseNotificationPayload, NewTask, hrt data hm]


/-- With the reference codec every notification with a well-formed timestamp is
built into a task of the given type, and the payload of that task decodes to
the fields of the notification. -/
theorem refJSON_parse_new (n : Notification) (t : String)
    (h : Ref.wellFormed n.CreatedAt) :
    ∃ task, NewNotificationTask refJSON n t = .ok task ∧ task.typename = t ∧
      ParseNotificationPayload refJSON task = .ok (payloadOf n) := by
  have hnew := refJSON_newTask n t ⟨h.1, h.2.1⟩
  refine ⟨_, hnew, rfl, ?_⟩
  have hp : Ref.wellFormed (payloadOf n).CreatedAt := h
  simp only [ParseNotificationPayload, NewTask, refJSON, Ref.Unmarshal_render _ hp]

/-- C10 (as amended), with `encoding/json` as the reference codec: when
`NewNotificationTask` returns a task for `n` and `t`, the task has type `t`
and `ParseNotificationPayload` succeeds on it with a payload whose seven
fields equal those of `n`.  A task is returned exactly when the year of the
timestamp lies in `0..9999`. -/
theorem parse_new_roundtrip (n : Notification) (t : String) (task : Task)
    (hcal : Ref.calendar n.CreatedAt)
    (hnew : NewNotificationTask refJSON n t = .ok task) :
    task.typename = t ∧
    (∃ p, ParseNotificationPayload refJSON task = .ok p ∧
      p.ID = n.ID ∧ p.Title = n.Title ∧ p.Message = n.Message ∧ p.Level = n.Level ∧
      p.Channel = n.Channel ∧ p.APIKey = n.APIKey ∧ p.CreatedAt = n.CreatedAt) ∧
    (∀ (n' : Notification) (t' : String),
      (∃ task', NewNotificationTask refJSON n' t' = .ok task') ↔
        0 ≤ n'.CreatedAt.year ∧ n'.CreatedAt.year < 10000) := by
  have hiff : ∀ (n' : Notification) (t' : String),
      (∃ task', NewNotificationTask refJSON n' t' = .ok task') ↔
        0 ≤ n'.CreatedAt.year ∧ n'.CreatedAt.year < 10000 := by
    intro n' t'
    constructor
    · rintro ⟨task', h'⟩
      by_contra hy
      have hout : (payloadOf n').CreatedAt.year < 0 ∨ 10000 ≤ (payloadOf n').CreatedAt.year := by
        simp only [payloadOf]
        omega
      simp [NewNotificationTask, refJSON, Ref.Marshal, hout] at h'
    · intro hy
      exact ⟨_, refJSON_newTask n' t' hy⟩
  have hy := (hiff n t).mp ⟨task, hnew⟩
  have hwf : Ref.wellFormed (payloadOf n).CreatedAt := ⟨hy.1, hy.2, hcal⟩
  rw [refJSON_newTask n t hy, Except.ok.injEq] at hnew
  subst hnew
  refine ⟨rfl, ⟨payloadOf n, ?_, rfl, rfl, rfl, rfl, rfl, rfl, rfl⟩, hiff⟩
  simp only [ParseNotificationPayload, NewTask, refJSON, Ref.Unmarshal_render _ hwf]

/-- C10, an instance: a notification with characters that need escaping and a
fraction of a second. -/
theorem parse_new_roundtrip_witness :
    NewNotificationTask refJSON exampleNotification "pns:notification:send" = .ok exampleTask ∧
    exampleTask.typename = "pns:notification:send" ∧
    ∃ p, ParseNotificationPayload refJSON exampleTask = .ok p ∧
      p.ID = exampleNotification.ID ∧ p.Title = exampleNotification.Title ∧
      p.Message = exampleNotification.Message ∧ p.Level = exampleNotification.Level ∧
      p.Channel = exampleNotification.Channel ∧ p.APIKey = exampleNotification.APIKey ∧
      p.CreatedAt = exampleNotification.CreatedAt :=
  ⟨by decide,
    (parse_new_roundtrip exampleNotification "pns:notification:send" exampleTask
      (by decide) (by decide)).1,
    (parse_new_roundtrip exampleNotification "pns:notification:send" exampleTask
      (by decide) (by decide)).2.1⟩

/-- C10 as stated fails for a notification stamped with the year 10000, a
calendar reading like any other: encoding its payload fails, so no task is
built. -/
theorem newNotificationTask_fails_year_10000 :
    Ref.calendar lateNotification.CreatedAt ∧
    (NewNotificationTask refJSON lateNotification "pns:notification:send").toOption = none := by
  decide

/-! ## The channel registry -/

/-- C16: after `Register(ch)` the lookup of `ch.Name()` finds `ch`, whatever
was registered under that name before; the lookup of every other name gives
what it gave before; and a registry from `NewRegistry` finds no name. -/
theorem register_get_frame (r : channels.Registry) (ch : channels.Channel) :
    (r.Register ch).Get ch.Name = some ch ∧
    (∀ name : Channel, name ≠ ch.Name → (r.Register ch).Get name = r.Get name) ∧
    (∀ name : Channel, channels.NewRegistry.Get name = none) := by
  refine ⟨?_, fun name hne => ?_, fun name => rfl⟩
  · simp [channels.Registry.Register, channels.Registry.Get, mapGet_mapSet]
  · simp [channels.Registry.Register, channels.Registry.Get, mapGet_mapSet, hne]

/-- C17: for a task whose payload decodes to a channel name the registry does
not hold, `handleNotification` returns the error `unknown channel: <name>`
and calls `Send` on no channel.  The error is not marked to skip retry, the
retry delay does not depend on it, and the `ErrorHandler` treats it as it
treats every other error: the will-retry warning below the retry limit, the
dead-letter record at the limit. -/
theorem handleNotification_unknown_channel (w : Worker) (json : JSON) (latency : Int)
    (task : Task) (payload : NotificationPayload)
    (hdec : json.Unmarshal task.payload = .ok payload)
    (hmiss : w.registry.Get payload.Channel = none) :
    (w.handleNotification json latency task).err =
      some (.errorsNew ("unknown channel: " ++ payload.Channel)) ∧
    (w.handleNotification json latency task).sends = [] ∧
    GoError.Error (.errorsNew ("unknown channel: " ++ payload.Channel)) =
      "unknown channel: " ++ payload.Channel ∧
    GoError.isSkipRetry (.errorsNew ("unknown channel: " ++ payload.Channel)) = false ∧
    (∀ (n : Int) (e : GoError),
      RetryDelayFunc n (.errorsNew ("unknown channel: " ++ payload.Channel)) task =
        RetryDelayFunc n e task) ∧
    (∀ retried maxRetry : Int,
      ErrorHandler json retried maxRetry task
          (.errorsNew ("unknown channel: " ++ payload.Channel)) =
        if retried ≥ maxRetry then
          [deadLetterRecord payload (.errorsNew ("unknown channel: " ++ payload.Channel)) retried]
        else
          [willRetryRecord payload (.errorsNew ("unknown channel: " ++ payload.Channel))
            retried maxRetry]) := by
  refine ⟨?_, ?_, rfl, rfl, fun n e => rfl, fun retried maxRetry => ?_⟩
  · simp [Worker.handleNotification, ParseNotificationPayload, hdec, hmiss]
  · simp [Worker.handleNotification, ParseNotificationPayload, hdec, hmiss]
  · simp [ErrorHandler, hdec]

/-- C17, an instance: the task of `exampleNotification` handled by a worker
whose registry is empty. -/
theorem handleNotification_unknown_channel_witness :
    refJSON.Unmarshal exampleTask.payload = .ok (payloadOf exampleNotification) ∧
    exampleWorker.registry.Get (payloadOf exampleNotification).Channel = none ∧
    (exampleWorker.handleNotification refJSON 0 exampleTask).err =
      some (.errorsNew "unknown channel: telegram") ∧
    (exampleWorker.handleNotification refJSON 0 exampleTask).sends = [] :=
  ⟨by decide, rfl,
    (handleNotification_unknown_channel exampleWorker refJSON 0 exampleTask
      (payloadOf exampleNotification) (by decide) rfl).1,
    (handleNotification_unknown_channel exampleWorker refJSON 0 exampleTask
      (payloadOf exampleNotification) (by decide) rfl).2.1⟩

/-! ## The registry of `main` -/

/-- C11 (as amended): of the two channel names `Validate` accepts, the
registry `main` builds holds `telegram` and does not hold `email`.  So for
every validated request each requested name is either `telegram`, for which
`Registry.Get` finds the Telegram channel, or `email`, for which it finds
nothing; and a task for `email` takes the unknown-channel branch of the
worker, without a call of `Send`. -/
theorem main_registry_telegram_only (cfg : Config) (tr : channels.Transport) :
    (∃ ch, (main.registry cfg tr).Get ChannelTelegram = some ch ∧
      ch.Name = ChannelTelegram ∧
      ∀ n, ch.Send n =
        ((channels.NewTelegramChannel cfg.TelegramBotToken cfg.TelegramChatID).Send tr n).err) ∧
    (main.registry cfg tr).Get ChannelEmail = none ∧
    (∀ req : Request, NewValidator.Validate req = none → ∀ c ∈ req.Channels,
      (c = ChannelTelegram ∧ ((main.registry cfg tr).Get c).isSome = true) ∨
      (c = ChannelEmail ∧ ((main.registry cfg tr).Get c).isSome = false)) ∧
    (∀ (json : JSON) (latency : Int) (task : Task) (payload : NotificationPayload),
      json.Unmarshal task.payload = .ok payload → payload.Channel = ChannelEmail →
      ((main.worker cfg tr).handleNotification json latency task).err =
        some (.errorsNew "unknown channel: email") ∧
      ((main.worker cfg tr).handleNotification json latency task).sends = []) := by
  have htg : (main.registry cfg tr).Get ChannelTelegram =
      some ((channels.NewTelegramChannel cfg.TelegramBotToken cfg.TelegramChatID).toChannel tr) :=
    rfl
  have hem : (main.registry cfg tr).Get ChannelEmail = none := rfl
  refine ⟨⟨_, htg, rfl, fun n => rfl⟩, hem, fun req hv c hc => ?_,
    fun json latency task payload hdec hch => ?_⟩
  · have hchs : Validator.validateChannels req.Channels = none := by
      unfold Validator.Validate at hv
      split_ifs at hv
      exact hv
    rcases (validateChannels_eq_none req.Channels).mp hchs c hc with h | h
    · exact Or.inl ⟨h, by rw [h, htg]; rfl⟩
    · exact Or.inr ⟨h, by rw [h, hem]; rfl⟩
  · have hget : (main.worker cfg tr).registry.Get "email" = none := hem
    simp [Worker.handleNotification, ParseNotificationPayload, hdec, hget, hch, ChannelEmail]

/-- C11 as stated fails for a request that names `email`: the request passes
`Validate`, the registry `main` builds holds no channel of that name, and the
worker answers its task with the unknown-channel error. -/
theorem email_validated_not_registered :
    NewValidator.Validate emailRequest = none ∧
    "email" ∈ emailRequest.Channels ∧
    ((main.registry exampleConfig acceptingTransport).Get "email").isSome = false ∧
    ((main.worker exampleConfig acceptingTransport).handleNotification refJSON 0 emailTask).err =
      some (.errorsNew "unknown channel: email") := by
  refine ⟨by decide, by decide, rfl, by decide⟩

/-! ## The Telegram channel -/

/-- Whatever the transport answers, `Send` hands one message to `json.Marshal`:
the chat id of the channel with the formatted text. -/
theorem send_messages (t : channels.TelegramChannel) (tr : channels.Transport)
    (n : Notification) :
    (t.Send tr n).messages =
      [⟨t.chatID, Level.Prefix n.Level ++ " " ++ n.Title ++ "\n\n" ++ n.Message, ""⟩] := by
  unfold channels.TelegramChannel.Send
  dsimp only
  repeat' split
  all_goals rfl

/-- C14: whatever the provider answers, the one message `TelegramChannel.Send`
marshals carries as text the characters of `Level.Prefix()`, a space, the
title, two line feeds and the message, in this order; when the message is
marshalled and the request is built from the marshalled text, that request
is the one sent, with its content type set.  `Prefix` maps `info`, `warning`, `error`,
`critical` to `[INFO]`, `[WARNING]`, `[ERROR]`, `[CRITICAL]` and every other
level to `[UNKNOWN]`. -/
theorem telegram_send_text (t : channels.TelegramChannel) (tr : channels.Transport)
    (n : Notification) :
    (∃ msg : channels.telegramMessage, (t.Send tr n).messages = [msg] ∧
      msg.ChatID = t.chatID ∧ msg.ParseMode = "" ∧
      msg.Text.data =
        (Level.Prefix n.Level).data ++ ' ' :: n.Title.data ++ '\n' :: '\n' :: n.Message.data ∧
      (∀ (body : String) (req : channels.HTTPRequest), tr.Marshal msg = .ok body →
        tr.NewRequest "POST" ("https://api.telegram.org/bot" ++ t.botToken ++ "/sendMessage")
          body = .ok req →
        (t.Send tr n).requests =
          [{ req with Header := mapSet req.Header "Content-Type" "application/json" }])) ∧
    Level.Prefix "info" = "[INFO]" ∧ Level.Prefix "warning" = "[WARNING]" ∧
    Level.Prefix "error" = "[ERROR]" ∧ Level.Prefix "critical" = "[CRITICAL]" ∧
    (∀ l : Level, l ≠ "info" → l ≠ "warning" → l ≠ "error" → l ≠ "critical" →
      Level.Prefix l = "[UNKNOWN]") := by
  refine ⟨⟨_, send_messages t tr n, rfl, rfl, ?_, ?_⟩, by decide, by decide, by decide,
    by decide, ?_⟩
  · simp [String.data_append]
  · intro body req hm hr
    unfold channels.TelegramChannel.Send
    simp only [hm, hr]
    repeat' split
    all_goals rfl
  · intro l h1 h2 h3 h4
    simp [Level.Prefix, LevelInfo, LevelWarning, LevelError, LevelCritical, h1, h2, h3, h4]

/-- C15: when a run of `TelegramChannel.Send` gets as far as a response body
that parses as the acknowledgment `resp`, it returns no error exactly when
`resp.OK` holds, and otherwise an error whose text is `telegram API error: `,
the description, ` (code: `, the error code in decimal and `)`; for the
acknowledgment `ok = false`, `chat not found`, `400` the text is
`telegram API error: chat not found (code: 400)`. -/
theorem telegram_send_ack (t : channels.TelegramChannel) (tr : channels.Transport)
    (n : Notification) (body respBody : String) (req : channels.HTTPRequest)
    (resp : channels.telegramResponse)
    (hm : tr.Marshal
      ⟨t.chatID, Level.Prefix n.Level ++ " " ++ n.Title ++ "\n\n" ++ n.Message, ""⟩ = .ok body)
    (hr : tr.NewRequest "POST" ("https://api.telegram.org/bot" ++ t.botToken ++ "/sendMessage")
      body = .ok req)
    (hd : tr.Do { req with Header := mapSet req.Header "Content-Type" "application/json" } =
      .ok ⟨.ok respBody⟩)
    (hu : tr.Unmarshal respBody = .ok resp) :
    ((t.Send tr n).err = none ↔ resp.OK = true) ∧
    (resp.OK = false →
      (t.Send tr n).err = some (.errorsNew ("telegram API error: " ++ resp.Description ++
        " (code: " ++ channels.formatInt resp.ErrorCode ++ ")")) ∧
      (t.Send tr n).err.map GoError.isSkipRetry = some false) ∧
    (resp = ⟨false, "chat not found", 400⟩ →
      (t.Send tr n).err.map GoError.Error =
        some "telegram API error: chat not found (code: 400)") := by
  have hrun : (t.Send tr n).err =
      if !resp.OK then some (.errorsNew ("telegram API error: " ++ resp.Description ++
        " (code: " ++ channels.formatInt resp.ErrorCode ++ ")")) else none := by
    unfold channels.TelegramChannel.Send
    simp only [hm, hr, hd, hu]
    split <;> rfl
  refine ⟨?_, fun hok => ?_, fun hresp => ?_⟩
  · rw [hrun]
    cases resp.OK <;> simp
  · rw [hrun, hok]
    exact ⟨rfl, rfl⟩
  · rw [hrun, hresp]
    decide

/-- C15, an instance: a provider that answers `chat not found`. -/
theorem telegram_send_ack_witness :
    ((channels.NewTelegramChannel "123456:token" "-1001").Send refusingTransport
      exampleNotification).err.map GoError.Error =
      some "telegram API error: chat not found (code: 400)" :=
  (telegram_send_ack (channels.NewTelegramChannel "123456:token" "-1001") refusingTransport
    exampleNotification "[ERROR] Disk <full>\n\nline 1\nline 2" "refused"
    ⟨"POST", "https://api.telegram.org/bot123456:token/sendMessage", [],
      "[ERROR] Disk <full>\n\nline 1\nline 2"⟩
    ⟨false, "chat not found", 400⟩ (by decide) (by decide) rfl rfl).2.2 rfl

/-! ## The HTTP handler -/

/-- C12: when the body of a `POST` request of an authenticated caller decodes
to a request that `Validate` rejects with `err`, `HandleNotify` answers with
status 400 and the text of `err`, makes no call of `Limiter.Allow` and no
call of `Client.Enqueue`, and leaves the limiter (its bucket table included)
and the producer state (the submissions made and the tasks stored) as they
were. -/
theorem handleNotify_validation_failure (h : api.Handler) (json : JSON)
    (decode : String → Except String Request) (env : Env) (clock : Nat → Int) (now : Time)
    (r : api.NotifyRequest) (l : Limiter) (w : World) (req : Request) (err : GoError)
    (hm : r.Method = "POST") (hk : api.GetAPIKey r.ctxAPIKey ≠ "")
    (hd : decode r.Body = .ok req) (hv : h.validator.Validate req = some err) :
    (h.HandleNotify json decode env clock now r l w).reply = ⟨400, .error ⟨err.Error⟩⟩ ∧
    (h.HandleNotify json decode env clock now r l w).allowCalls = [] ∧
    (h.HandleNotify json decode env clock now r l w).enqueueCalls = [] ∧
    (h.HandleNotify json decode env clock now r l w).limiter = l ∧
    (h.HandleNotify json decode env clock now r l w).limiter.limiters = l.limiters ∧
    (h.HandleNotify json decode env clock now r l w).world = w ∧
    (h.HandleNotify json decode env clock now r l w).world.calls = w.calls ∧
    (h.HandleNotify json decode env clock now r l w).world.store = w.store := by
  have hrun : h.HandleNotify json decode env clock now r l w =
      ⟨api.WriteError 400 err.Error,
        [⟨"WARN", "validation failed", [("error", .str err.Error)]⟩], [], [], l, w⟩ := by
    unfold api.Handler.HandleNotify
    simp [hm, hk, hd, hv]
  rw [hrun]
  exact ⟨rfl, rfl, rfl, rfl, rfl, rfl, rfl, rfl⟩

/-- C12, an instance: a request for the channel `sms`. -/
theorem handleNotify_validation_failure_witness :
    NewValidator.Validate smsRequest = some ErrInvalidChannel ∧
    (exampleHandler.HandleNotify refJSON (fun _ => .ok smsRequest) acceptingEnv (fun _ => 0)
      exampleNow ⟨"POST", some "key-1", "body"⟩ (NewLimiter 60) emptyWorld).reply =
      ⟨400, .error ⟨"invalid channel: must be one of telegram, email"⟩⟩ ∧
    (exampleHandler.HandleNotify refJSON (fun _ => .ok smsRequest) acceptingEnv (fun _ => 0)
      exampleNow ⟨"POST", some "key-1", "body"⟩ (NewLimiter 60) emptyWorld).limiter =
      NewLimiter 60 :=
  ⟨by decide,
    (handleNotify_validation_failure exampleHandler refJSON (fun _ => .ok smsRequest)
      acceptingEnv (fun _ => 0) exampleNow ⟨"POST", some "key-1", "body"⟩ (NewLimiter 60)
      emptyWorld smsRequest ErrInvalidChannel rfl (by decide) rfl (by decide)).1,
    (handleNotify_validation_failure exampleHandler refJSON (fun _ => .ok smsRequest)
      acceptingEnv (fun _ => 0) exampleNow ⟨"POST", some "key-1", "body"⟩ (NewLimiter 60)
      emptyWorld smsRequest ErrInvalidChannel rfl (by decide) rfl (by decide)).2.2.2.1⟩

theorem checkEach_cons (clock : Nat → Int) (apiKey : String) (ch : Channel)
    (rest : List Channel) (l : Limiter) (calls : List (String × String)) :
    api.checkEach clock apiKey (ch :: rest) l calls =
      if (l.Allow (clock calls.length) apiKey ch).1 = false then
        ⟨false, ch, calls ++ [(apiKey, ch)], (l.Allow (clock calls.length) apiKey ch).2⟩
      else api.checkEach clock apiKey rest (l.Allow (clock calls.length) apiKey ch).2
        (calls ++ [(apiKey, ch)]) := by
  rw [api.checkEach]
  rcases l.Allow (clock calls.length) apiKey ch with ⟨ok, l'⟩
  cases ok <;> simp

theorem allowEach_cons (clock : Nat → Int) (apiKey : String) (ch : Channel)
    (rest : List Channel) (i : Nat) (l : Limiter) :
    Limiter.allowEach clock apiKey (ch :: rest) i l =
      ((l.Allow (clock i) apiKey ch).1 ::
        (Limiter.allowEach clock apiKey rest (i + 1) (l.Allow (clock i) apiKey ch).2).1,
       (Limiter.allowEach clock apiKey rest (i + 1) (l.Allow (clock i) apiKey ch).2).2) := rfl

/-- The limiter left by the calls for `pre` and then for `c`. -/
theorem allowEach_snoc (clock : Nat → Int) (apiKey : String) (c : Channel)
    (pre : List Channel) (i : Nat) (l : Limiter) :
    (Limiter.allowEach clock apiKey (pre ++ [c]) i l).1 =
      (Limiter.allowEach clock apiKey pre i l).1 ++
        [((Limiter.allowEach clock apiKey pre i l).2.Allow (clock (i + pre.length)) apiKey c).1] ∧
    (Limiter.allowEach clock apiKey (pre ++ [c]) i l).2 =
      ((Limiter.allowEach clock apiKey pre i l).2.Allow (clock (i + pre.length)) apiKey c).2 := by
  induction pre generalizing i l with
  | nil => exact ⟨rfl, rfl⟩
  | cons ch rest ih =>
    have h := ih (i + 1) (l.Allow (clock i) apiKey ch).2
    have hlen : i + (ch :: rest).length = i + 1 + rest.length := by
      simp only [List.length_cons]; omega
    rw [List.cons_append, allowEach_cons, allowEach_cons, hlen]
    exact ⟨by rw [h.1]; rfl, h.2⟩

/-- When every channel is admitted, the check makes one call for each channel. -/
theorem checkEach_all_admitted (clock : Nat → Int) (apiKey : String) (chs : List Channel)
    (l : Limiter) (calls : List (String × String))
    (h : ∀ ok ∈ (Limiter.allowEach clock apiKey chs calls.length l).1, ok = true) :
    api.checkEach clock apiKey chs l calls =
      ⟨true, "", calls ++ chs.map (fun ch => (apiKey, ch)),
        (Limiter.allowEach clock apiKey chs calls.length l).2⟩ := by
  induction chs generalizing l calls with
  | nil => simp [api.checkEach, Limiter.allowEach]
  | cons ch rest ih =>
    rw [allowEach_cons] at h
    have hok : (l.Allow (clock calls.length) apiKey ch).1 = true := h _ (List.mem_cons_self _ _)
    have hrest := ih (l.Allow (clock calls.length) apiKey ch).2 (calls ++ [(apiKey, ch)])
      (by
        intro ok hmem
        apply h
        simp only [List.length_append, List.length_singleton] at hmem
        exact List.mem_cons_of_mem _ hmem)
    rw [checkEach_cons, allowEach_cons, hrest]
    simp [hok]

/-- When the channels of `pre` are admitted and `c` is rejected, the check
stops at `c`. -/
theorem checkEach_first_rejected (clock : Nat → Int) (apiKey : String)
    (pre : List Channel) (c : Channel) (post : List Channel)
    (l : Limiter) (calls : List (String × String))
    (h : ∀ ok ∈ (Limiter.allowEach clock apiKey pre calls.length l).1, ok = true)
    (hc : ((Limiter.allowEach clock apiKey pre calls.length l).2.Allow
      (clock (calls.length + pre.length)) apiKey c).1 = false) :
    api.checkEach clock apiKey (pre ++ c :: post) l calls =
      ⟨false, c, calls ++ (pre ++ [c]).map (fun ch => (apiKey, ch)),
        ((Limiter.allowEach clock apiKey pre calls.length l).2.Allow
          (clock (calls.length + pre.length)) apiKey c).2⟩ := by
  induction pre generalizing l calls with
  | nil =>
    simp only [Limiter.allowEach, List.length_nil, Nat.add_zero] at hc
    rw [List.nil_append, checkEach_cons]
    simp [hc, Limiter.allowEach]
  | cons ch rest ih =>
    rw [allowEach_cons] at h
    have hok : (l.Allow (clock calls.length) apiKey ch).1 = true := h _ (List.mem_cons_self _ _)
    have hlen : (calls ++ [(apiKey, ch)]).length = calls.length + 1 := by simp
    have hlen2 : calls.length + (ch :: rest).length = calls.length + 1 + rest.length := by
      simp only [List.length_cons]; omega
    rw [allowEach_cons, hlen2] at hc
    have hrest := ih (l.Allow (clock calls.length) apiKey ch).2 (calls ++ [(apiKey, ch)])
      (by
        intro ok hmem
        rw [hlen] at hmem
        exact h ok (List.mem_cons_of_mem _ hmem))
      (by rw [hlen]; exact hc)
    rw [List.cons_append, checkEach_cons, allowEach_cons, hrest, hlen, hlen2]
    simp [hok]

/-- Either every channel is admitted, or the list splits at the first channel rejected. -/
theorem allowEach_split (clock : Nat → Int) (apiKey : String) (chs : List Channel)
    (i : Nat) (l : Limiter) :
    (∀ ok ∈ (Limiter.allowEach clock apiKey chs i l).1, ok = true) ∨
    ∃ pre c post, chs = pre ++ c :: post ∧
      (∀ ok ∈ (Limiter.allowEach clock apiKey pre i l).1, ok = true) ∧
      ((Limiter.allowEach clock apiKey pre i l).2.Allow (clock (i + pre.length)) apiKey c).1 =
        false := by
  induction chs generalizing i l with
  | nil => exact Or.inl (by simp [Limiter.allowEach])
  | cons ch rest ih =>
    cases hok : (l.Allow (clock i) apiKey ch).1 with
    | false => exact Or.inr ⟨[], ch, rest, rfl, by simp [Limiter.allowEach], by
        simpa [Limiter.allowEach] using hok⟩
    | true =>
      rcases ih (i + 1) (l.Allow (clock i) apiKey ch).2 with hall | ⟨pre, c, post, hsplit, hpre, hc⟩
      · refine Or.inl ?_
        rw [allowEach_cons]
        intro ok hmem
        rcases List.mem_cons.mp hmem with h | h
        · rw [h, hok]
        · exact hall ok h
      · refine Or.inr ⟨ch :: pre, c, post, by rw [hsplit]; rfl, ?_, ?_⟩
        · rw [allowEach_cons]
          intro ok hmem
          rcases List.mem_cons.mp hmem with h | h
          · rw [h, hok]
          · exact hpre ok h
        · have hlen : i + (ch :: pre).length = i + 1 + pre.length := by
            simp only [List.length_cons]; omega
          rw [allowEach_cons, hlen]
          exact hc

/-- An admitted call of `Allow` takes one token from the bucket of its pair:
the bucket found or made for the pair, refilled up to the clock reading, less
one token. -/
theorem allow_consumes (l : Limiter) (now : Int) (apiKey channel : String)
    (h : (l.Allow now apiKey channel).1 = true) :
    mapGet (l.Allow now apiKey channel).2.limiters (apiKey ++ ":" ++ channel) =
      some { (l.getLimiter apiKey channel).1 with
        tokens := (l.getLimiter apiKey channel).1.advance now - tokenUnit, last := now } := by
  unfold Limiter.Allow at h ⊢
  rcases hg : l.getLimiter apiKey channel with ⟨b, l'⟩
  rw [hg] at h
  simp only [TokenBucket.Allow, TokenBucket.AllowN] at h ⊢
  simp only [one_mul] at h ⊢
  by_cases hle : tokenUnit ≤ b.advance now
  · simp [hle, mapGet_mapSet, Limiter.key]
  · simp [hle] at h

/-- C13: `CheckRateLimit` returns `(true, "")` exactly when `Allow`, called for
the channels of the list in order, admits every one of them; it then has made
one call for each channel.  Otherwise the list splits into the channels
admitted, the first channel `c` rejected and the channels after it, the
answer is `(false, c)`, and the calls made are those for the channels up to
`c` and no other.  Every admitted call has taken one token from the bucket of
its pair (the token bucket is the model of the rate package given above). -/
theorem checkRateLimit_first_rejection (l : Limiter) (clock : Nat → Int) (apiKey : String)
    (chs : List Channel) :
    (((api.CheckRateLimit l clock apiKey chs).allowed,
        (api.CheckRateLimit l clock apiKey chs).blocked) = (true, "") ↔
      ∀ ok ∈ (Limiter.allowEach clock apiKey chs 0 l).1, ok = true) ∧
    ((∀ ok ∈ (Limiter.allowEach clock apiKey chs 0 l).1, ok = true) →
      (api.CheckRateLimit l clock apiKey chs).calls = chs.map (fun ch => (apiKey, ch)) ∧
      (api.CheckRateLimit l clock apiKey chs).limiter =
        (Limiter.allowEach clock apiKey chs 0 l).2) ∧
    ((¬ ∀ ok ∈ (Limiter.allowEach clock apiKey chs 0 l).1, ok = true) →
      ∃ pre c post, chs = pre ++ c :: post ∧
        (∀ ok ∈ (Limiter.allowEach clock apiKey pre 0 l).1, ok = true) ∧
        ((Limiter.allowEach clock apiKey pre 0 l).2.Allow (clock pre.length) apiKey c).1 =
          false ∧
        (api.CheckRateLimit l clock apiKey chs).allowed = false ∧
        (api.CheckRateLimit l clock apiKey chs).blocked = c ∧
        (api.CheckRateLimit l clock apiKey chs).calls =
          (pre ++ [c]).map (fun ch => (apiKey, ch)) ∧
        (api.CheckRateLimit l clock apiKey chs).limiter =
          (Limiter.allowEach clock apiKey (pre ++ [c]) 0 l).2) ∧
    (∀ pre c post, chs = pre ++ c :: post →
      (∀ ok ∈ (Limiter.allowEach clock apiKey (pre ++ [c]) 0 l).1, ok = true) →
      mapGet (Limiter.allowEach clock apiKey (pre ++ [c]) 0 l).2.limiters
          (apiKey ++ ":" ++ c) =
        some { ((Limiter.allowEach clock apiKey pre 0 l).2.getLimiter apiKey c).1 with
          tokens := ((Limiter.allowEach clock apiKey pre 0 l).2.getLimiter apiKey c).1.advance
            (clock pre.length) - tokenUnit,
          last := clock pre.length }) := by
  have hyes : (∀ ok ∈ (Limiter.allowEach clock apiKey chs 0 l).1, ok = true) →
      api.CheckRateLimit l clock apiKey chs =
        ⟨true, "", chs.map (fun ch => (apiKey, ch)),
          (Limiter.allowEach clock apiKey chs 0 l).2⟩ := by
    intro h
    have := checkEach_all_admitted clock apiKey chs l [] h
    simpa [api.CheckRateLimit] using this
  have hno : (¬ ∀ ok ∈ (Limiter.allowEach clock apiKey chs 0 l).1, ok = true) →
      ∃ pre c post, chs = pre ++ c :: post ∧
        (∀ ok ∈ (Limiter.allowEach clock apiKey pre 0 l).1, ok = true) ∧
        ((Limiter.allowEach clock apiKey pre 0 l).2.Allow (clock pre.length) apiKey c).1 =
          false ∧
        api.CheckRateLimit l clock apiKey chs =
          ⟨false, c, (pre ++ [c]).map (fun ch => (apiKey, ch)),
            (Limiter.allowEach clock apiKey (pre ++ [c]) 0 l).2⟩ := by
    intro h
    rcases allowEach_split clock apiKey chs 0 l with hall | ⟨pre, c, post, hsplit, hpre, hc⟩
    · exact absurd hall h
    · rw [Nat.zero_add] at hc
      refine ⟨pre, c, post, hsplit, hpre, hc, ?_⟩
      have := checkEach_first_rejected clock apiKey pre c post l [] hpre
        (by simpa using hc)
      rw [(allowEach_snoc clock apiKey c pre 0 l).2, Nat.zero_add, hsplit]
      simpa [api.CheckRateLimit] using this
  refine ⟨⟨fun hpair => ?_, fun hall => by rw [hyes hall]⟩, fun hall => by rw [hyes hall]; exact ⟨rfl, rfl⟩,
    fun hnot => ?_, fun pre c post _ hall => ?_⟩
  · by_contra hnot
    obtain ⟨pre, c, post, -, -, -, hrun⟩ := hno hnot
    rw [hrun] at hpair
    simp at hpair
  · obtain ⟨pre, c, post, hsplit, hpre, hc, hrun⟩ := hno hnot
    exact ⟨pre, c, post, hsplit, hpre, hc, by rw [hrun], by rw [hrun], by rw [hrun], by rw [hrun]⟩
  · have hsn := allowEach_snoc clock apiKey c pre 0 l
    rw [Nat.zero_add] at hsn
    have hok : ((Limiter.allowEach clock apiKey pre 0 l).2.Allow (clock pre.length)
        apiKey c).1 = true := by
      apply hall
      rw [hsn.1]
      simp
    rw [hsn.2]
    exact allow_consumes _ _ _ _ hok

/-- C13, an instance: a caller with a full allowance asks for two channels. -/
theorem checkRateLimit_first_rejection_witness :
    ((api.CheckRateLimit (NewLimiter 60) (fun _ => 0) "key-1" ["telegram", "email"]).allowed,
      (api.CheckRateLimit (NewLimiter 60) (fun _ => 0) "key-1" ["telegram", "email"]).blocked) =
      (true, "") :=
  (checkRateLimit_first_rejection (NewLimiter 60) (fun _ => 0) "key-1"
    ["telegram", "email"]).1.mpr (by decide)

end PNS
